import Mathlib

/-! Invitation relay (`invite.go`): shallow embedding and verified properties.

The Go package relays invitations between an upstream HTTP API and a MySQL
store.  Every function of `invite.go` that the properties below talk about is
embedded as a Lean function in explicit state-passing style:

* the store, the file system holding the SQL scripts and the upstream HTTP
  endpoint are *collaborators*; their behaviour is an arbitrary `World σ`
  (a state type `σ` and one transition function per primitive call);
* every primitive call appends an `Event` (the call with its answer) to a
  trace, so that "which calls were made, in which order" is a statement about
  a list;
* Go `error` values are their messages (`String`); a nil error is `none`;
* the `go-multierror` aggregate is the list of its wrapped entries, each entry
  remembering the label given to `multierror.Prefix`; a nil aggregate is `[]`;
* log statements do not influence control flow and are left out.
-/

namespace Invite

/-! ## Data model -/

/-- The `mysql.NullTime` value: a time (abstracted to a number) and the flag
telling whether the column was non-NULL. -/
structure NullTime where
  Time : Nat
  Valid : Bool
deriving DecidableEq, Repr

/-- The `invite` struct of `invite.go` (field `Type` is spelled `InvType`). -/
structure invite where
  ID : String
  InvitedBy : Int
  Invitee : Int
  Role : String
  IsOccupant : Bool
  CaseID : Int
  UnitID : Int
  InvType : String
deriving DecidableEq, Repr

/-- The fields of `handler` that the embedded functions read; the `DB`
connection is the `World`. -/
structure handler where
  DSN : String
  Domain : String
  APIAccessToken : String
  Code : Int
deriving DecidableEq, Repr

/-- Answer of a fallible call that yields a value: `err msg` or `ok v`. -/
inductive Res (α : Type) where
  | err (msg : String)
  | ok (v : α)
deriving DecidableEq, Repr

/-- One primitive interaction with a collaborator, together with its answer. -/
inductive Event where
  /-- The call `QueryRow("SELECT processed_datetime ... WHERE mefe_invitation_id=?").Scan` -/
  | queryProcessedDatetime (id : String) (r : Res NullTime)
  /-- The call `QueryRow("SELECT mefe_invitation_id ... WHERE mefe_invitation_id=?").Scan` -/
  | queryInvitationID (id : String) (r : Res String)
  /-- The call `QueryRow("SELECT id_role_type FROM ut_role_types WHERE role_type=?").Scan` -/
  | queryRoleID (roleName : String) (r : Res Int)
  /-- The call `Exec("INSERT INTO ut_invitation_api_data ...")` -/
  | execInsert (inv : invite) (roleID : Int) (r : Option String)
  /-- The call `ioutil.ReadFile(path)` -/
  | readFile (path : String) (r : Res String)
  /-- The call `Exec(fmt.Sprintf(script, id, code))`; `sqlfile` remembers which file the
  script text was read from. -/
  | execScript (sqlfile : String) (script : String) (id : String) (code : Int)
      (r : Option String)
  /-- The call `http.NewRequest("PUT", url, payload)` where the payload is the JSON
  encoding of `ids` -/
  | newRequest (url : String) (ids : List String) (r : Option String)
  /-- The call `http.DefaultClient.Do(req)`: a transport error or the status code -/
  | httpDo (url : String) (ids : List String) (r : Res Nat)
deriving DecidableEq, Repr

/-- Behaviour of the collaborators: every primitive answers from the current
collaborator state and moves to a new one.  No restriction is put on these
functions, so a `World` ranges over every (deterministic) behaviour of the
store, the file system and the upstream API, including answers that depend on
the whole history of calls. -/
structure World (σ : Type) where
  queryProcessedDatetime : σ → String → Res NullTime × σ
  queryInvitationID : σ → String → Res String × σ
  queryRoleID : σ → String → Res Int × σ
  execInsert : σ → invite → Int → Option String × σ
  readFile : σ → String → Res String × σ
  execScript : σ → String → String → Int → Option String × σ
  newRequest : String → Option String
  httpDo : σ → String → List String → Res Nat × σ

/-- Result of running an embedded function: returned value, collaborator state
afterwards, and the primitive calls made (in order). -/
structure Out (σ : Type) (α : Type) where
  val : α
  state : σ
  trace : List Event

/-- One entry of a `multierror` aggregate produced by
`multierror.Prefix(err, label)`. -/
structure PrefixedError where
  label : String
  err : String
deriving DecidableEq, Repr

/-- The call `multierror.Prefix(err, label)` on a plain (non-aggregate) error. -/
def multierror_Prefixed (err : String) (label : String) : PrefixedError :=
  ⟨label, err⟩

/-- The call `multierror.Append(result, e)`: the aggregate with `e` added last. -/
def multierror_Append (result : List PrefixedError) (e : PrefixedError) :
    List PrefixedError :=
  result ++ [e]

/-! ## The functions of `invite.go` -/

variable {σ : Type}

/-- Function `lookupRoleID` (lines 149-152). -/
def lookupRoleID (w : World σ) (roleName : String) (s : σ) : Out σ (Res Int) :=
  let q := w.queryRoleID s roleName
  ⟨q.1, q.2, [Event.queryRoleID roleName q.1]⟩

/-- Function `step1Insert` (lines 154-185): resolve the role, then INSERT the record. -/
def step1Insert (w : World σ) (inv : invite) (s : σ) : Out σ (Option String) :=
  let a := lookupRoleID w inv.Role s
  match a.val with
  | Res.err e => ⟨some e, a.state, a.trace⟩
  | Res.ok roleID =>
    let q := w.execInsert a.state inv roleID
    ⟨q.1, q.2, a.trace ++ [Event.execInsert inv roleID q.1]⟩

/-- Function `runsql` (lines 187-198): read `sql/<sqlfile>` and execute it with the
invitation identifier and the environment code substituted. -/
def runsql (w : World σ) (h : handler) (sqlfile : String) (inv : invite) (s : σ) :
    Out σ (Option String) :=
  let f := w.readFile s ("sql/" ++ sqlfile)
  match f.1 with
  | Res.err e => ⟨some e, f.2, [Event.readFile ("sql/" ++ sqlfile) f.1]⟩
  | Res.ok sqlscript =>
    let q := w.execScript f.2 sqlscript inv.ID h.Code
    ⟨q.1, q.2, [Event.readFile ("sql/" ++ sqlfile) f.1,
      Event.execScript sqlfile sqlscript inv.ID h.Code q.1]⟩

/-- Function `checkProcessedDatetime` (lines 485-489). -/
def checkProcessedDatetime (w : World σ) (MefeInvitationID : String) (s : σ) :
    Out σ (Res NullTime) :=
  let q := w.queryProcessedDatetime s MefeInvitationID
  ⟨q.1, q.2, [Event.queryProcessedDatetime MefeInvitationID q.1]⟩

/-- Function `checkIfInvitationExistsAlready` (lines 491-495). -/
def checkIfInvitationExistsAlready (w : World σ) (MefeInvitationID : String) (s : σ) :
    Out σ (Res String) :=
  let q := w.queryInvitationID s MefeInvitationID
  ⟨q.1, q.2, [Event.queryInvitationID MefeInvitationID q.1]⟩

/-- Function `markInvitesProcessed` (lines 328-383).  `json.Marshal` of a `[]string`
cannot fail, so the first error branch is dead.  A status code different from
200 is only logged (line 356-358): the function returns the nil error left by
`Do`. -/
def markInvitesProcessed (w : World σ) (h : handler) (ids : List String) (s : σ) :
    Out σ (Option String) :=
  let url := h.Domain ++ "/api/pending-invitations/done?accessToken=" ++ h.APIAccessToken
  match w.newRequest url with
  | some e => ⟨some e, s, [Event.newRequest url ids (some e)]⟩
  | none =>
    let q := w.httpDo s url ids
    match q.1 with
    | Res.err e => ⟨some e, q.2, [Event.newRequest url ids none, Event.httpDo url ids q.1]⟩
    | Res.ok _ => ⟨none, q.2, [Event.newRequest url ids none, Event.httpDo url ids q.1]⟩

/-- Function `inviteUsertoUnit` (lines 200-225): the push path.  Both failure branches
are `return err`; the named result `result` is never assigned, so the normal
exit returns nil. -/
def inviteUsertoUnit (w : World σ) (h : handler) : List invite → σ → Out σ (Option String)
  | [], s => ⟨none, s, []⟩
  | inv :: rest, s =>
    let a := step1Insert w inv s
    match a.val with
    | some err => ⟨some err, a.state, a.trace⟩
    | none =>
      let b := runsql w h "invite_user_in_a_role_in_a_unit.sql" inv a.state
      match b.val with
      | some err => ⟨some err, b.state, a.trace ++ b.trace⟩
      | none =>
        let c := inviteUsertoUnit w h rest b.state
        ⟨c.val, c.state, a.trace ++ b.trace ++ c.trace⟩

/-- Function `handlePush` (lines 409-444) from the decoded payload on: the HTTP status
and body sent back. -/
def handlePush (w : World σ) (h : handler) (invites : List invite) (s : σ) :
    Out σ (Nat × String) :=
  if invites.length < 1 then ⟨(400, "Empty payload"), s, []⟩
  else
    let r := inviteUsertoUnit w h invites s
    match r.val with
    | some err => ⟨(500, err), r.state, r.trace⟩
    | none => ⟨(200, "Pushed " ++ toString invites.length), r.state, r.trace⟩

/-- Lines 303-313 of `processInvite`: step 4, the case notification. -/
def processInvite_step4 (w : World σ) (h : handler) (inv : invite)
    (result : List PrefixedError) (s : σ) : Out σ (List PrefixedError) :=
  if inv.CaseID ≠ 0 then
    let n := runsql w h "2_add_invitation_sent_message_to_a_case_v3.0.sql" inv s
    match n.val with
    | some err => ⟨multierror_Append result (multierror_Prefixed err inv.ID), n.state, n.trace⟩
    | none => ⟨result, n.state, n.trace⟩
  else ⟨result, s, []⟩

/-- Lines 284-313 of `processInvite`: the completion check after the grant
(only `err != nil` is tested), step 3 (report done) and step 4. -/
def processInvite_afterGrant (w : World σ) (h : handler) (inv : invite)
    (result : List PrefixedError) (s : σ) : Out σ (List PrefixedError) :=
  let c := checkProcessedDatetime w inv.ID s
  match c.val with
  | Res.err err => ⟨multierror_Append result (multierror_Prefixed err inv.ID), c.state, c.trace⟩
  | Res.ok _ =>
    let m := markInvitesProcessed w h [inv.ID] c.state
    match m.val with
    | some err =>
      ⟨multierror_Append result (multierror_Prefixed err inv.ID), m.state, c.trace ++ m.trace⟩
    | none =>
      let n := processInvite_step4 w h inv result m.state
      ⟨n.val, n.state, c.trace ++ m.trace ++ n.trace⟩

/-- Lines 266-313 of `processInvite`: step 2, the grant script chosen by
`CaseID`, then the rest. -/
def processInvite_step2 (w : World σ) (h : handler) (inv : invite)
    (result : List PrefixedError) (s : σ) : Out σ (List PrefixedError) :=
  if inv.CaseID = 0 then
    let g := runsql w h "invite_user_in_a_role_in_a_unit.sql" inv s
    match g.val with
    | some err => ⟨multierror_Append result (multierror_Prefixed err inv.ID), g.state, g.trace⟩
    | none =>
      let r := processInvite_afterGrant w h inv result g.state
      ⟨r.val, r.state, g.trace ++ r.trace⟩
  else
    let g := runsql w h "1_invite_user_to_a_case.sql" inv s
    match g.val with
    | some err => ⟨multierror_Append result (multierror_Prefixed err inv.ID), g.state, g.trace⟩
    | none =>
      let r := processInvite_afterGrant w h inv result g.state
      ⟨r.val, r.state, g.trace ++ r.trace⟩

/-- Lines 251-313 of `processInvite`: the existence check, step 1 when the
check returned an error, then step 2 onwards. -/
def processInvite_step1 (w : World σ) (h : handler) (inv : invite)
    (result : List PrefixedError) (s : σ) : Out σ (List PrefixedError) :=
  let x := checkIfInvitationExistsAlready w inv.ID s
  match x.val with
  | Res.err _ =>
    let i := step1Insert w inv x.state
    match i.val with
    | some err =>
      ⟨multierror_Append result (multierror_Prefixed err inv.ID), i.state, x.trace ++ i.trace⟩
    | none =>
      let r := processInvite_step2 w h inv result i.state
      ⟨r.val, r.state, x.trace ++ i.trace ++ r.trace⟩
  | Res.ok _ =>
    let r := processInvite_step2 w h inv result x.state
    ⟨r.val, r.state, x.trace ++ r.trace⟩

/-- The body of the loop of `processInvite` (lines 233-313) for one item:
`result` is the aggregate so far, every `continue` is a return. -/
def processInvite_body (w : World σ) (h : handler) (inv : invite)
    (result : List PrefixedError) (s : σ) : Out σ (List PrefixedError) :=
  let d := checkProcessedDatetime w inv.ID s
  match d.val with
  | Res.ok dt =>
    if dt.Valid then
      let m := markInvitesProcessed w h [inv.ID] d.state
      match m.val with
      | some err =>
        ⟨multierror_Append result (multierror_Prefixed err inv.ID), m.state, d.trace ++ m.trace⟩
      | none => ⟨result, m.state, d.trace ++ m.trace⟩
    else
      let r := processInvite_step1 w h inv result d.state
      ⟨r.val, r.state, d.trace ++ r.trace⟩
  | Res.err _ =>
    let r := processInvite_step1 w h inv result d.state
    ⟨r.val, r.state, d.trace ++ r.trace⟩

/-- The loop of `processInvite` (lines 227-316) started with aggregate
`result`. -/
def processInvite_loop (w : World σ) (h : handler) :
    List invite → List PrefixedError → σ → Out σ (List PrefixedError)
  | [], result, s => ⟨result, s, []⟩
  | inv :: rest, result, s =>
    let b := processInvite_body w h inv result s
    let r := processInvite_loop w h rest b.val b.state
    ⟨r.val, r.state, b.trace ++ r.trace⟩

/-- Function `processInvite` (lines 227-316): the loop started with the nil aggregate. -/
def processInvite (w : World σ) (h : handler) (invites : List invite) (s : σ) :
    Out σ (List PrefixedError) :=
  processInvite_loop w h invites [] s

/-! ## Reading a trace -/

/-- The error of an answer, if it is one. -/
def Res.errorOf {α : Type} : Res α → Option String
  | Res.err e => some e
  | Res.ok _ => none

/-- The error a call was answered with, if any. -/
def Event.errorOf : Event → Option String
  | Event.queryProcessedDatetime _ r => r.errorOf
  | Event.queryInvitationID _ r => r.errorOf
  | Event.queryRoleID _ r => r.errorOf
  | Event.execInsert _ _ r => r
  | Event.readFile _ r => r.errorOf
  | Event.execScript _ _ _ _ r => r
  | Event.newRequest _ _ r => r
  | Event.httpDo _ _ r => r.errorOf

/-- The collaborator answered this call with an error. -/
def Event.failed (e : Event) : Bool :=
  e.errorOf.isSome

/-- A call made by Register (`step1Insert`): the role lookup or the INSERT. -/
def Event.isRegister : Event → Bool
  | Event.queryProcessedDatetime _ _ => false
  | Event.queryInvitationID _ _ => false
  | Event.queryRoleID _ _ => true
  | Event.execInsert _ _ _ => true
  | Event.readFile _ _ => false
  | Event.execScript _ _ _ _ _ => false
  | Event.newRequest _ _ _ => false
  | Event.httpDo _ _ _ => false

/-- The INSERT of an invitation record. -/
def Event.isInsert : Event → Bool
  | Event.queryProcessedDatetime _ _ => false
  | Event.queryInvitationID _ _ => false
  | Event.queryRoleID _ _ => false
  | Event.execInsert _ _ _ => true
  | Event.readFile _ _ => false
  | Event.execScript _ _ _ _ _ => false
  | Event.newRequest _ _ _ => false
  | Event.httpDo _ _ _ => false

/-- The first call of `runsql sqlfile`: reading `sql/<sqlfile>`. -/
def Event.startsRunsql (sqlfile : String) : Event → Bool
  | Event.queryProcessedDatetime _ _ => false
  | Event.queryInvitationID _ _ => false
  | Event.queryRoleID _ _ => false
  | Event.execInsert _ _ _ => false
  | Event.readFile path _ => path == "sql/" ++ sqlfile
  | Event.execScript _ _ _ _ _ => false
  | Event.newRequest _ _ _ => false
  | Event.httpDo _ _ _ => false

/-- A call made by `runsql sqlfile`: reading the file or executing its text. -/
def Event.isRunsqlOf (sqlfile : String) : Event → Bool
  | Event.queryProcessedDatetime _ _ => false
  | Event.queryInvitationID _ _ => false
  | Event.queryRoleID _ _ => false
  | Event.execInsert _ _ _ => false
  | Event.readFile path _ => path == "sql/" ++ sqlfile
  | Event.execScript f _ _ _ _ => f == sqlfile
  | Event.newRequest _ _ _ => false
  | Event.httpDo _ _ _ => false

/-- A call made by any `runsql`. -/
def Event.isScript : Event → Bool
  | Event.queryProcessedDatetime _ _ => false
  | Event.queryInvitationID _ _ => false
  | Event.queryRoleID _ _ => false
  | Event.execInsert _ _ _ => false
  | Event.readFile _ _ => true
  | Event.execScript _ _ _ _ _ => true
  | Event.newRequest _ _ _ => false
  | Event.httpDo _ _ _ => false

/-- The first call of `markInvitesProcessed`: building the PUT request. -/
def Event.startsReport : Event → Bool
  | Event.queryProcessedDatetime _ _ => false
  | Event.queryInvitationID _ _ => false
  | Event.queryRoleID _ _ => false
  | Event.execInsert _ _ _ => false
  | Event.readFile _ _ => false
  | Event.execScript _ _ _ _ _ => false
  | Event.newRequest _ _ _ => true
  | Event.httpDo _ _ _ => false

/-- A call made by `markInvitesProcessed`. -/
def Event.isReport : Event → Bool
  | Event.queryProcessedDatetime _ _ => false
  | Event.queryInvitationID _ _ => false
  | Event.queryRoleID _ _ => false
  | Event.execInsert _ _ _ => false
  | Event.readFile _ _ => false
  | Event.execScript _ _ _ _ _ => false
  | Event.newRequest _ _ _ => true
  | Event.httpDo _ _ _ => true

/-- The PUT sent by `markInvitesProcessed`. -/
def Event.isPut : Event → Bool
  | Event.queryProcessedDatetime _ _ => false
  | Event.queryInvitationID _ _ => false
  | Event.queryRoleID _ _ => false
  | Event.execInsert _ _ _ => false
  | Event.readFile _ _ => false
  | Event.execScript _ _ _ _ _ => false
  | Event.newRequest _ _ _ => false
  | Event.httpDo _ _ _ => true

/-- The identifier list carried by a call of `markInvitesProcessed`. -/
def Event.reportIds : Event → List String
  | Event.queryProcessedDatetime _ _ => []
  | Event.queryInvitationID _ _ => []
  | Event.queryRoleID _ _ => []
  | Event.execInsert _ _ _ => []
  | Event.readFile _ _ => []
  | Event.execScript _ _ _ _ _ => []
  | Event.newRequest _ ids _ => ids
  | Event.httpDo _ ids _ => ids

/-- The existence probe of `checkIfInvitationExistsAlready`. -/
def Event.isExistsProbe : Event → Bool
  | Event.queryProcessedDatetime _ _ => false
  | Event.queryInvitationID _ _ => true
  | Event.queryRoleID _ _ => false
  | Event.execInsert _ _ _ => false
  | Event.readFile _ _ => false
  | Event.execScript _ _ _ _ _ => false
  | Event.newRequest _ _ _ => false
  | Event.httpDo _ _ _ => false

/-- A completion check (`checkProcessedDatetime`). -/
def Event.isCheck : Event → Bool
  | Event.queryProcessedDatetime _ _ => true
  | Event.queryInvitationID _ _ => false
  | Event.queryRoleID _ _ => false
  | Event.execInsert _ _ _ => false
  | Event.readFile _ _ => false
  | Event.execScript _ _ _ _ _ => false
  | Event.newRequest _ _ _ => false
  | Event.httpDo _ _ _ => false

/-- The answer is a timestamp that is not NULL. -/
def Res.validTime : Res NullTime → Bool
  | Res.err _ => false
  | Res.ok dt => dt.Valid

/-- A completion check answered without error. -/
def Event.isCheckOk : Event → Bool
  | Event.queryProcessedDatetime _ r => r.errorOf.isNone
  | Event.queryInvitationID _ _ => false
  | Event.queryRoleID _ _ => false
  | Event.execInsert _ _ _ => false
  | Event.readFile _ _ => false
  | Event.execScript _ _ _ _ _ => false
  | Event.newRequest _ _ _ => false
  | Event.httpDo _ _ _ => false

/-- A completion check answered without error and with a non-NULL timestamp. -/
def Event.confirms : Event → Bool
  | Event.queryProcessedDatetime _ r => r.validTime
  | Event.queryInvitationID _ _ => false
  | Event.queryRoleID _ _ => false
  | Event.execInsert _ _ _ => false
  | Event.readFile _ _ => false
  | Event.execScript _ _ _ _ _ => false
  | Event.newRequest _ _ _ => false
  | Event.httpDo _ _ _ => false

/-- The URL `markInvitesProcessed` sends its PUT to (line 340). -/
def doneURL (h : handler) : String :=
  h.Domain ++ "/api/pending-invitations/done?accessToken=" ++ h.APIAccessToken

/-- The unit-role grant script (GrantUnitRole). -/
def unitRoleScript : String := "invite_user_in_a_role_in_a_unit.sql"

/-- The case-access grant script (GrantCaseAccess). -/
def caseAccessScript : String := "1_invite_user_to_a_case.sql"

/-- The case-notification script (PostCaseNotification). -/
def caseMessageScript : String := "2_add_invitation_sent_message_to_a_case_v3.0.sql"

/-- Number of `runsql sqlfile` calls in a trace. -/
def runsqlCalls (sqlfile : String) (t : List Event) : Nat :=
  t.countP (Event.startsRunsql sqlfile)

/-- Number of `markInvitesProcessed` calls in a trace. -/
def reporterCalls (t : List Event) : Nat :=
  t.countP Event.startsReport

/-- The upstream received and answered a PUT carrying exactly `[id]`. -/
def ReportedDone (id : String) (t : List Event) : Prop :=
  ∃ url code, Event.httpDo url [id] (Res.ok code) ∈ t

/-- Every call made for an item after its first completion check was answered
without error, except possibly the existence probe (whose error means "not
registered yet") and the calls of the case notification. -/
def OwnStepsSucceed (seg : List Event) : Prop :=
  ∀ e ∈ seg.tail, e.failed = true →
    e.isExistsProbe = true ∨ e.isRunsqlOf caseMessageScript = true

/-- The error answer of the last call of a segment, if it was an error. -/
def lastError (seg : List Event) : Option String :=
  match seg.getLast? with
  | some e => e.errorOf
  | none => none

/-- The aggregate entries an item contributes for the error `e` (none for a
nil error). -/
def recorded (id : String) : Option String → List PrefixedError
  | some e => [multierror_Prefixed e id]
  | none => []

/-- The grant script `processInvite` selects at step 2 (lines 268-282). -/
def grantScript (inv : invite) : String :=
  if inv.CaseID = 0 then unitRoleScript else caseAccessScript

/-! ## The exit paths of the loop body

`BodyPath h inv v t` lists every way one iteration of the loop of
`processInvite` can run: `t` is the sequence of calls made and `v` the entries
added to the aggregate.  `processInvite_body` always follows one of them
(`body_path` below). -/

/-- The calls between the first completion check and step 2 when the item goes
on to step 2: the existence probe found the record, or it did not and Register
succeeded. -/
inductive Registered (inv : invite) : List Event → Prop where
  | existing (x : String) :
    Registered inv [Event.queryInvitationID inv.ID (Res.ok x)]
  | inserted (e0 : String) (rid : Int) :
    Registered inv [Event.queryInvitationID inv.ID (Res.err e0),
      Event.queryRoleID inv.Role (Res.ok rid), Event.execInsert inv rid none]

/-- The exit paths of one iteration of the loop of `processInvite`. -/
inductive BodyPath (h : handler) (inv : invite) : List PrefixedError → List Event → Prop where
  /-- Already processed, building the PUT failed (lines 241-248). -/
  | doneRequestFailed (dt : NullTime) (url e : String) (hv : dt.Valid = true) :
    BodyPath h inv [⟨inv.ID, e⟩]
      [Event.queryProcessedDatetime inv.ID (Res.ok dt), Event.newRequest url [inv.ID] (some e)]
  /-- Already processed, the PUT failed in transport. -/
  | donePutFailed (dt : NullTime) (url e : String) (hv : dt.Valid = true) :
    BodyPath h inv [⟨inv.ID, e⟩]
      [Event.queryProcessedDatetime inv.ID (Res.ok dt), Event.newRequest url [inv.ID] none,
        Event.httpDo url [inv.ID] (Res.err e)]
  /-- Already processed and reported again. -/
  | doneReported (dt : NullTime) (url : String) (code : Nat) (hv : dt.Valid = true) :
    BodyPath h inv []
      [Event.queryProcessedDatetime inv.ID (Res.ok dt), Event.newRequest url [inv.ID] none,
        Event.httpDo url [inv.ID] (Res.ok code)]
  /-- Register failed at the role lookup (lines 255-260, 155-158). -/
  | roleFailed (r : Res NullTime) (e0 e : String)
      (hr : (Event.queryProcessedDatetime inv.ID r).confirms = false) :
    BodyPath h inv [⟨inv.ID, e⟩]
      [Event.queryProcessedDatetime inv.ID r, Event.queryInvitationID inv.ID (Res.err e0),
        Event.queryRoleID inv.Role (Res.err e)]
  /-- Register failed at the INSERT. -/
  | insertFailed (r : Res NullTime) (e0 : String) (rid : Int) (e : String)
      (hr : (Event.queryProcessedDatetime inv.ID r).confirms = false) :
    BodyPath h inv [⟨inv.ID, e⟩]
      [Event.queryProcessedDatetime inv.ID r, Event.queryInvitationID inv.ID (Res.err e0),
        Event.queryRoleID inv.Role (Res.ok rid), Event.execInsert inv rid (some e)]
  /-- The grant script could not be read (lines 268-282, 188-191). -/
  | grantReadFailed (r : Res NullTime) (X : List Event) (e : String)
      (hr : (Event.queryProcessedDatetime inv.ID r).confirms = false) (hX : Registered inv X) :
    BodyPath h inv [⟨inv.ID, e⟩]
      (Event.queryProcessedDatetime inv.ID r :: (X ++
        [Event.readFile ("sql/" ++ grantScript inv) (Res.err e)]))
  /-- The grant script failed. -/
  | grantExecFailed (r : Res NullTime) (X : List Event) (script e : String)
      (hr : (Event.queryProcessedDatetime inv.ID r).confirms = false) (hX : Registered inv X) :
    BodyPath h inv [⟨inv.ID, e⟩]
      (Event.queryProcessedDatetime inv.ID r :: (X ++
        [Event.readFile ("sql/" ++ grantScript inv) (Res.ok script),
          Event.execScript (grantScript inv) script inv.ID h.Code (some e)]))
  /-- The completion check after the grant returned an error (lines 284-291). -/
  | checkFailed (r : Res NullTime) (X : List Event) (script e : String)
      (hr : (Event.queryProcessedDatetime inv.ID r).confirms = false) (hX : Registered inv X) :
    BodyPath h inv [⟨inv.ID, e⟩]
      (Event.queryProcessedDatetime inv.ID r :: (X ++
        [Event.readFile ("sql/" ++ grantScript inv) (Res.ok script),
          Event.execScript (grantScript inv) script inv.ID h.Code none,
          Event.queryProcessedDatetime inv.ID (Res.err e)]))
  /-- Step 3 failed while building the PUT (lines 296-301). -/
  | requestFailed (r : Res NullTime) (X : List Event) (script : String) (dt : NullTime)
      (url e : String)
      (hr : (Event.queryProcessedDatetime inv.ID r).confirms = false) (hX : Registered inv X) :
    BodyPath h inv [⟨inv.ID, e⟩]
      (Event.queryProcessedDatetime inv.ID r :: (X ++
        [Event.readFile ("sql/" ++ grantScript inv) (Res.ok script),
          Event.execScript (grantScript inv) script inv.ID h.Code none,
          Event.queryProcessedDatetime inv.ID (Res.ok dt),
          Event.newRequest url [inv.ID] (some e)]))
  /-- Step 3 failed in transport. -/
  | putFailed (r : Res NullTime) (X : List Event) (script : String) (dt : NullTime)
      (url e : String)
      (hr : (Event.queryProcessedDatetime inv.ID r).confirms = false) (hX : Registered inv X) :
    BodyPath h inv [⟨inv.ID, e⟩]
      (Event.queryProcessedDatetime inv.ID r :: (X ++
        [Event.readFile ("sql/" ++ grantScript inv) (Res.ok script),
          Event.execScript (grantScript inv) script inv.ID h.Code none,
          Event.queryProcessedDatetime inv.ID (Res.ok dt),
          Event.newRequest url [inv.ID] none, Event.httpDo url [inv.ID] (Res.err e)]))
  /-- Reported, no case: step 4 is skipped (lines 311-313). -/
  | reportedNoCase (r : Res NullTime) (X : List Event) (script : String) (dt : NullTime)
      (url : String) (code : Nat) (hc : inv.CaseID = 0)
      (hr : (Event.queryProcessedDatetime inv.ID r).confirms = false) (hX : Registered inv X) :
    BodyPath h inv []
      (Event.queryProcessedDatetime inv.ID r :: (X ++
        [Event.readFile ("sql/" ++ grantScript inv) (Res.ok script),
          Event.execScript (grantScript inv) script inv.ID h.Code none,
          Event.queryProcessedDatetime inv.ID (Res.ok dt),
          Event.newRequest url [inv.ID] none, Event.httpDo url [inv.ID] (Res.ok code)]))
  /-- Reported, the notification script could not be read (lines 303-310). -/
  | notifyReadFailed (r : Res NullTime) (X : List Event) (script : String) (dt : NullTime)
      (url : String) (code : Nat) (e : String) (hc : inv.CaseID ≠ 0)
      (hr : (Event.queryProcessedDatetime inv.ID r).confirms = false) (hX : Registered inv X) :
    BodyPath h inv [⟨inv.ID, e⟩]
      (Event.queryProcessedDatetime inv.ID r :: (X ++
        [Event.readFile ("sql/" ++ grantScript inv) (Res.ok script),
          Event.execScript (grantScript inv) script inv.ID h.Code none,
          Event.queryProcessedDatetime inv.ID (Res.ok dt),
          Event.newRequest url [inv.ID] none, Event.httpDo url [inv.ID] (Res.ok code),
          Event.readFile ("sql/" ++ caseMessageScript) (Res.err e)]))
  /-- Reported, the notification script failed. -/
  | notifyExecFailed (r : Res NullTime) (X : List Event) (script : String) (dt : NullTime)
      (url : String) (code : Nat) (script2 e : String) (hc : inv.CaseID ≠ 0)
      (hr : (Event.queryProcessedDatetime inv.ID r).confirms = false) (hX : Registered inv X) :
    BodyPath h inv [⟨inv.ID, e⟩]
      (Event.queryProcessedDatetime inv.ID r :: (X ++
        [Event.readFile ("sql/" ++ grantScript inv) (Res.ok script),
          Event.execScript (grantScript inv) script inv.ID h.Code none,
          Event.queryProcessedDatetime inv.ID (Res.ok dt),
          Event.newRequest url [inv.ID] none, Event.httpDo url [inv.ID] (Res.ok code),
          Event.readFile ("sql/" ++ caseMessageScript) (Res.ok script2),
          Event.execScript caseMessageScript script2 inv.ID h.Code (some e)]))
  /-- Reported and notified. -/
  | notified (r : Res NullTime) (X : List Event) (script : String) (dt : NullTime)
      (url : String) (code : Nat) (script2 : String) (hc : inv.CaseID ≠ 0)
      (hr : (Event.queryProcessedDatetime inv.ID r).confirms = false) (hX : Registered inv X) :
    BodyPath h inv []
      (Event.queryProcessedDatetime inv.ID r :: (X ++
        [Event.readFile ("sql/" ++ grantScript inv) (Res.ok script),
          Event.execScript (grantScript inv) script inv.ID h.Code none,
          Event.queryProcessedDatetime inv.ID (Res.ok dt),
          Event.newRequest url [inv.ID] none, Event.httpDo url [inv.ID] (Res.ok code),
          Event.readFile ("sql/" ++ caseMessageScript) (Res.ok script2),
          Event.execScript caseMessageScript script2 inv.ID h.Code none]))

/-- The run of the loop body for `inv` when `inv` follows the items `pre` in a
batch started in state `s`: the body is entered in the collaborator state left
by `pre`. -/
def itemRun (w : World σ) (h : handler) (pre : List invite) (inv : invite) (s : σ) :
    Out σ (List PrefixedError) :=
  processInvite_body w h inv [] (processInvite w h pre s).state

/-- The item was judged complete: its first completion check returned a
non-NULL timestamp, or a later completion check returned without error. -/
def judgedComplete (seg : List Event) : Bool :=
  seg.head?.any Event.confirms || seg.tail.any Event.isCheckOk

/-- The item reached step 2 (the grant): it was not already complete and no
call of Register failed. -/
def reachesStep2 (seg : List Event) : Bool :=
  !(seg.head?.any Event.confirms) && seg.all (fun e => !(e.isRegister && e.failed))

/-! ## A reference collaborator

`simWorld` is a small executable stand-in for the collaborators: an invitation
table with a nullable `processed_datetime` column, a role table, a directory of
SQL scripts and an upstream endpoint with a fixed answer.  It is used to run
the code on concrete inputs. -/

/-- One row of `ut_invitation_api_data`. -/
structure Row where
  inv : invite
  user_role_type_id : Int
  processed_datetime : Option Nat
deriving DecidableEq, Repr

/-- State of the reference collaborator. -/
structure Sim where
  /-- The table `ut_role_types`: role name and role id -/
  roles : List (String × Int)
  /-- The table `ut_invitation_api_data` -/
  rows : List Row
  /-- The script directory: path and script text -/
  files : List (String × String)
  /-- What the upstream answers to a PUT: transport error or status code -/
  upstream : Res Nat
  /-- The identifier lists the upstream has received -/
  reported : List (List String)
  /-- The clock of the store -/
  now : Nat
deriving DecidableEq, Repr

/-- The message of `sql.ErrNoRows`. -/
def errNoRows : String := "sql: no rows in result set"

/-- Row lookup by `mefe_invitation_id`. -/
def Sim.findRow (s : Sim) (id : String) : Option Row :=
  s.rows.find? (fun r => r.inv.ID == id)

/-- Effect of executing a script text for invitation `id`: the text `COMPLETE`
sets the completion timestamp of the row, `MESSAGE` and `NOOP` change nothing,
any other text is rejected. -/
def Sim.runScript (s : Sim) (script : String) (id : String) : Option String × Sim :=
  if script = "COMPLETE" then
    match s.findRow id with
    | none => (some "no such invitation", s)
    | some _ =>
      (none, { s with rows := s.rows.map (fun r =>
        if r.inv.ID == id then { r with processed_datetime := some s.now } else r) })
  else if script = "MESSAGE" ∨ script = "NOOP" then (none, s)
  else (some "You have an error in your SQL syntax", s)

/-- The reference collaborator as a `World`. -/
def simWorld : World Sim where
  queryProcessedDatetime := fun s id =>
    match s.findRow id with
    | none => (Res.err errNoRows, s)
    | some r =>
      match r.processed_datetime with
      | none => (Res.ok ⟨0, false⟩, s)
      | some t => (Res.ok ⟨t, true⟩, s)
  queryInvitationID := fun s id =>
    match s.findRow id with
    | none => (Res.err errNoRows, s)
    | some r => (Res.ok r.inv.ID, s)
  queryRoleID := fun s roleName =>
    match s.roles.find? (fun p => p.1 == roleName) with
    | none => (Res.err errNoRows, s)
    | some p => (Res.ok p.2, s)
  execInsert := fun s inv roleID =>
    match s.findRow inv.ID with
    | some _ => (some "Duplicate entry for key mefe_invitation_id", s)
    | none => (none, { s with rows := s.rows ++ [⟨inv, roleID, none⟩] })
  readFile := fun s path =>
    match s.files.find? (fun p => p.1 == path) with
    | none => (Res.err "no such file or directory", s)
    | some p => (Res.ok p.2, s)
  execScript := fun s script id _ => s.runScript script id
  newRequest := fun _ => none
  httpDo := fun s _ ids =>
    match s.upstream with
    | Res.err e => (Res.err e, s)
    | Res.ok code => (Res.ok code, { s with reported := s.reported ++ [ids] })

/-- The handler used in the concrete runs. -/
def h0 : handler := ⟨"dsn", "https://case", "tok", 1⟩

/-- The script directory as deployed: the two grant scripts set the completion
timestamp, the notification script posts a message. -/
def filesOK : List (String × String) :=
  [("sql/invite_user_in_a_role_in_a_unit.sql", "COMPLETE"),
   ("sql/1_invite_user_to_a_case.sql", "COMPLETE"),
   ("sql/2_add_invitation_sent_message_to_a_case_v3.0.sql", "MESSAGE")]

/-- An empty store with one role, the deployed scripts and an upstream that
answers 200. -/
def sim0 : Sim := ⟨[("occupant", 4)], [], filesOK, Res.ok 200, [], 1000⟩

/-- As `sim0`, but the upstream cannot be reached. -/
def simDown : Sim := ⟨[("occupant", 4)], [], filesOK, Res.err "connection refused", [], 1000⟩

/-- As `sim0`, but the upstream answers 500 to every PUT. -/
def sim500 : Sim := ⟨[("occupant", 4)], [], filesOK, Res.ok 500, [], 1000⟩

/-- As `sim0`, but the unit-role grant script succeeds without setting the
completion timestamp. -/
def simNoop : Sim :=
  ⟨[("occupant", 4)], [],
    [("sql/invite_user_in_a_role_in_a_unit.sql", "NOOP"),
     ("sql/1_invite_user_to_a_case.sql", "COMPLETE"),
     ("sql/2_add_invitation_sent_message_to_a_case_v3.0.sql", "MESSAGE")],
    Res.ok 200, [], 1000⟩

/-- Invitation `a1` of scenario A: no case. -/
def invA1 : invite := ⟨"a1", 1, 7, "occupant", true, 0, 3, "replace_default"⟩

/-- A store in which `a1` was registered by an earlier run that stopped before
the grant: the row exists, its completion timestamp is NULL. -/
def simRegistered : Sim :=
  ⟨[("occupant", 4)], [⟨invA1, 4, none⟩], filesOK, Res.ok 200, [], 1000⟩

/-- Invitation `a2` of scenario B: case 99. -/
def invA2 : invite := ⟨"a2", 1, 8, "occupant", false, 99, 3, "keep_default"⟩

/-- Invitation `a3` of scenario D: a role name that is not in the role table. -/
def invA3 : invite := ⟨"a3", 1, 9, "nobody", false, 0, 3, "keep_default"⟩

/-! ## Structure of the loop -/


theorem step4_acc (w : World σ) (h : handler) (inv : invite) (result : List PrefixedError) (s : σ) :
    processInvite_step4 w h inv result s =
      ⟨result ++ (processInvite_step4 w h inv [] s).val,
        (processInvite_step4 w h inv [] s).state, (processInvite_step4 w h inv [] s).trace⟩ := by
  unfold processInvite_step4
  dsimp only
  by_cases hc : inv.CaseID = 0
  · simp [hc]
  · simp only [ne_eq, hc, not_false_eq_true, if_true]
    cases hn : (runsql w h "2_add_invitation_sent_message_to_a_case_v3.0.sql" inv s).val <;>
      simp [multierror_Append]

theorem afterGrant_acc (w : World σ) (h : handler) (inv : invite) (result : List PrefixedError) (s : σ) :
    processInvite_afterGrant w h inv result s =
      ⟨result ++ (processInvite_afterGrant w h inv [] s).val,
        (processInvite_afterGrant w h inv [] s).state,
        (processInvite_afterGrant w h inv [] s).trace⟩ := by
  unfold processInvite_afterGrant
  dsimp only
  cases hc : (checkProcessedDatetime w inv.ID s).val with
  | err e => simp [multierror_Append]
  | ok dt =>
    cases hm : (markInvitesProcessed w h [inv.ID] (checkProcessedDatetime w inv.ID s).state).val with
    | some e => simp [multierror_Append]
    | none =>
      simp only
      rw [step4_acc]

theorem step2_acc (w : World σ) (h : handler) (inv : invite) (result : List PrefixedError) (s : σ) :
    processInvite_step2 w h inv result s =
      ⟨result ++ (processInvite_step2 w h inv [] s).val,
        (processInvite_step2 w h inv [] s).state, (processInvite_step2 w h inv [] s).trace⟩ := by
  unfold processInvite_step2
  dsimp only
  by_cases hc : inv.CaseID = 0
  · simp only [hc, if_true]
    cases hg : (runsql w h "invite_user_in_a_role_in_a_unit.sql" inv s).val with
    | some e => simp [multierror_Append]
    | none => simp only; rw [afterGrant_acc]
  · simp only [hc, if_false]
    cases hg : (runsql w h "1_invite_user_to_a_case.sql" inv s).val with
    | some e => simp [multierror_Append]
    | none => simp only; rw [afterGrant_acc]

theorem step1_acc (w : World σ) (h : handler) (inv : invite) (result : List PrefixedError) (s : σ) :
    processInvite_step1 w h inv result s =
      ⟨result ++ (processInvite_step1 w h inv [] s).val,
        (processInvite_step1 w h inv [] s).state, (processInvite_step1 w h inv [] s).trace⟩ := by
  unfold processInvite_step1
  dsimp only
  cases hx : (checkIfInvitationExistsAlready w inv.ID s).val with
  | err e =>
    cases hi : (step1Insert w inv (checkIfInvitationExistsAlready w inv.ID s).state).val with
    | some e => simp [multierror_Append]
    | none => simp only; rw [step2_acc]
  | ok v => simp only; rw [step2_acc]

/-- The aggregate so far is only extended by an iteration: state and calls do
not depend on it. -/
theorem body_acc (w : World σ) (h : handler) (inv : invite) (result : List PrefixedError) (s : σ) :
    processInvite_body w h inv result s =
      ⟨result ++ (processInvite_body w h inv [] s).val,
        (processInvite_body w h inv [] s).state, (processInvite_body w h inv [] s).trace⟩ := by
  unfold processInvite_body
  dsimp only
  cases hd : (checkProcessedDatetime w inv.ID s).val with
  | err e => simp only; rw [step1_acc]
  | ok dt =>
    by_cases hv : dt.Valid = true
    · simp only [hv, if_true]
      cases hm : (markInvitesProcessed w h [inv.ID] (checkProcessedDatetime w inv.ID s).state).val with
      | some e => simp [multierror_Append]
      | none => simp
    · simp only [hv]; rw [step1_acc]; simp

/-- The loop started with any aggregate extends it by what `processInvite`
returns. -/
theorem loop_acc (w : World σ) (h : handler) (invs : List invite) (result : List PrefixedError) (s : σ) :
    processInvite_loop w h invs result s =
      ⟨result ++ (processInvite w h invs s).val, (processInvite w h invs s).state,
        (processInvite w h invs s).trace⟩ := by
  induction invs generalizing result s with
  | nil => simp [processInvite, processInvite_loop]
  | cons inv rest ih =>
    simp only [processInvite, processInvite_loop]
    rw [ih (processInvite_body w h inv result s).val, ih (processInvite_body w h inv [] s).val]
    rw [body_acc w h inv result s]
    simp

/-- One unfolding of the loop. -/
theorem processInvite_cons (w : World σ) (h : handler) (inv : invite) (rest : List invite) (s : σ) :
    processInvite w h (inv :: rest) s =
      ⟨(processInvite_body w h inv [] s).val ++
          (processInvite w h rest (processInvite_body w h inv [] s).state).val,
        (processInvite w h rest (processInvite_body w h inv [] s).state).state,
        (processInvite_body w h inv [] s).trace ++
          (processInvite w h rest (processInvite_body w h inv [] s).state).trace⟩ := by
  show processInvite_loop w h (inv :: rest) [] s = _
  simp only [processInvite_loop]
  rw [loop_acc]

/-- A batch runs as: the items before, the item, the items after. -/
theorem processInvite_split (w : World σ) (h : handler) (pre : List invite) (inv : invite)
    (post : List invite) (s : σ) :
    processInvite w h (pre ++ inv :: post) s =
      ⟨(processInvite w h pre s).val ++
          (processInvite_body w h inv [] (processInvite w h pre s).state).val ++
          (processInvite w h post
            (processInvite_body w h inv [] (processInvite w h pre s).state).state).val,
        (processInvite w h post
            (processInvite_body w h inv [] (processInvite w h pre s).state).state).state,
        (processInvite w h pre s).trace ++
          (processInvite_body w h inv [] (processInvite w h pre s).state).trace ++
          (processInvite w h post
            (processInvite_body w h inv [] (processInvite w h pre s).state).state).trace⟩ := by
  induction pre generalizing s with
  | nil => simp [processInvite_cons]; simp [processInvite, processInvite_loop]
  | cons p pre ih =>
    rw [List.cons_append, processInvite_cons, ih, processInvite_cons]
    simp


/-! ### Shapes of the leaf calls -/

theorem check_shape (w : World σ) (id : String) (s : σ) :
    ∃ r s1, checkProcessedDatetime w id s = ⟨r, s1, [Event.queryProcessedDatetime id r]⟩ :=
  ⟨_, _, rfl⟩

theorem probe_shape (w : World σ) (id : String) (s : σ) :
    ∃ r s1, checkIfInvitationExistsAlready w id s = ⟨r, s1, [Event.queryInvitationID id r]⟩ :=
  ⟨_, _, rfl⟩

theorem step1Insert_shape (w : World σ) (inv : invite) (s : σ) :
    (∃ e s1, step1Insert w inv s = ⟨some e, s1, [Event.queryRoleID inv.Role (Res.err e)]⟩) ∨
    (∃ rid r s1, step1Insert w inv s =
      ⟨r, s1, [Event.queryRoleID inv.Role (Res.ok rid), Event.execInsert inv rid r]⟩) := by
  unfold step1Insert lookupRoleID
  dsimp only
  cases hq : (w.queryRoleID s inv.Role).1 with
  | err e => exact Or.inl ⟨e, _, rfl⟩
  | ok rid => exact Or.inr ⟨rid, _, _, rfl⟩

theorem runsql_shape (w : World σ) (h : handler) (f : String) (inv : invite) (s : σ) :
    (∃ e s1, runsql w h f inv s = ⟨some e, s1, [Event.readFile ("sql/" ++ f) (Res.err e)]⟩) ∨
    (∃ script r s1, runsql w h f inv s =
      ⟨r, s1, [Event.readFile ("sql/" ++ f) (Res.ok script),
        Event.execScript f script inv.ID h.Code r]⟩) := by
  unfold runsql
  dsimp only
  cases hq : (w.readFile s ("sql/" ++ f)).1 with
  | err e => exact Or.inl ⟨e, _, rfl⟩
  | ok script => exact Or.inr ⟨script, _, _, rfl⟩

theorem mark_shape (w : World σ) (h : handler) (ids : List String) (s : σ) :
    ∃ url,
    (∃ e, markInvitesProcessed w h ids s = ⟨some e, s, [Event.newRequest url ids (some e)]⟩) ∨
    (∃ e s1, markInvitesProcessed w h ids s =
      ⟨some e, s1, [Event.newRequest url ids none, Event.httpDo url ids (Res.err e)]⟩) ∨
    (∃ code s1, markInvitesProcessed w h ids s =
      ⟨none, s1, [Event.newRequest url ids none, Event.httpDo url ids (Res.ok code)]⟩) := by
  refine ⟨h.Domain ++ "/api/pending-invitations/done?accessToken=" ++ h.APIAccessToken, ?_⟩
  unfold markInvitesProcessed
  dsimp only
  cases hn : w.newRequest
      (h.Domain ++ "/api/pending-invitations/done?accessToken=" ++ h.APIAccessToken) with
  | some e => exact Or.inl ⟨e, rfl⟩
  | none =>
    dsimp only
    cases hq : (w.httpDo s
        (h.Domain ++ "/api/pending-invitations/done?accessToken=" ++ h.APIAccessToken) ids).1 with
    | err e => exact Or.inr (Or.inl ⟨e, _, rfl⟩)
    | ok code => exact Or.inr (Or.inr ⟨code, _, rfl⟩)


/-! ### Shapes of the stages of the loop body -/

theorem step4_shape (w : World σ) (h : handler) (inv : invite) (s : σ) :
    (inv.CaseID = 0 ∧ processInvite_step4 w h inv [] s = ⟨[], s, []⟩) ∨
    (inv.CaseID ≠ 0 ∧ ∃ e s1, processInvite_step4 w h inv [] s =
      ⟨[⟨inv.ID, e⟩], s1,
        [Event.readFile ("sql/" ++ caseMessageScript) (Res.err e)]⟩) ∨
    (inv.CaseID ≠ 0 ∧ ∃ script e s1, processInvite_step4 w h inv [] s =
      ⟨[⟨inv.ID, e⟩], s1,
        [Event.readFile ("sql/" ++ caseMessageScript) (Res.ok script),
          Event.execScript caseMessageScript script inv.ID h.Code (some e)]⟩) ∨
    (inv.CaseID ≠ 0 ∧ ∃ script s1, processInvite_step4 w h inv [] s =
      ⟨[], s1,
        [Event.readFile ("sql/" ++ caseMessageScript) (Res.ok script),
          Event.execScript caseMessageScript script inv.ID h.Code none]⟩) := by
  unfold processInvite_step4 caseMessageScript
  dsimp only
  by_cases hc : inv.CaseID = 0
  · simp [hc]
  · simp only [ne_eq, hc, not_false_eq_true, if_true, false_and, true_and, false_or]
    rcases runsql_shape w h "2_add_invitation_sent_message_to_a_case_v3.0.sql" inv s with
      ⟨e, s1, hr⟩ | ⟨script, r, s1, hr⟩
    · rw [hr]
      exact Or.inl ⟨e, s1, rfl⟩
    · rw [hr]
      cases r with
      | some e => exact Or.inr (Or.inl ⟨script, e, s1, rfl⟩)
      | none => exact Or.inr (Or.inr ⟨script, s1, rfl⟩)

theorem afterGrant_shape (w : World σ) (h : handler) (inv : invite) (s : σ) :
    (∃ e s1, processInvite_afterGrant w h inv [] s =
      ⟨[⟨inv.ID, e⟩], s1, [Event.queryProcessedDatetime inv.ID (Res.err e)]⟩) ∨
    (∃ dt url e s1, processInvite_afterGrant w h inv [] s =
      ⟨[⟨inv.ID, e⟩], s1, [Event.queryProcessedDatetime inv.ID (Res.ok dt),
        Event.newRequest url [inv.ID] (some e)]⟩) ∨
    (∃ dt url e s1, processInvite_afterGrant w h inv [] s =
      ⟨[⟨inv.ID, e⟩], s1, [Event.queryProcessedDatetime inv.ID (Res.ok dt),
        Event.newRequest url [inv.ID] none, Event.httpDo url [inv.ID] (Res.err e)]⟩) ∨
    (∃ dt url code s1, processInvite_afterGrant w h inv [] s =
      ⟨(processInvite_step4 w h inv [] s1).val, (processInvite_step4 w h inv [] s1).state,
        [Event.queryProcessedDatetime inv.ID (Res.ok dt),
          Event.newRequest url [inv.ID] none, Event.httpDo url [inv.ID] (Res.ok code)] ++
        (processInvite_step4 w h inv [] s1).trace⟩) := by
  unfold processInvite_afterGrant
  dsimp only
  obtain ⟨r, s1, hc⟩ := check_shape w inv.ID s
  rw [hc]
  cases r with
  | err e => exact Or.inl ⟨e, s1, rfl⟩
  | ok dt =>
    dsimp only
    obtain ⟨url, ⟨e, hm⟩ | ⟨e, s2, hm⟩ | ⟨code, s2, hm⟩⟩ := mark_shape w h [inv.ID] s1 <;>
      rw [hm] <;> dsimp only
    · exact Or.inr (Or.inl ⟨dt, url, e, s1, rfl⟩)
    · exact Or.inr (Or.inr (Or.inl ⟨dt, url, e, s2, rfl⟩))
    · exact Or.inr (Or.inr (Or.inr ⟨dt, url, code, s2, rfl⟩))

theorem step2_shape (w : World σ) (h : handler) (inv : invite) (s : σ) :
    ∃ f, f = (if inv.CaseID = 0 then unitRoleScript else caseAccessScript) ∧
    ((∃ e s1, processInvite_step2 w h inv [] s =
      ⟨[⟨inv.ID, e⟩], s1, [Event.readFile ("sql/" ++ f) (Res.err e)]⟩) ∨
    (∃ script e s1, processInvite_step2 w h inv [] s =
      ⟨[⟨inv.ID, e⟩], s1, [Event.readFile ("sql/" ++ f) (Res.ok script),
        Event.execScript f script inv.ID h.Code (some e)]⟩) ∨
    (∃ script s1, processInvite_step2 w h inv [] s =
      ⟨(processInvite_afterGrant w h inv [] s1).val,
        (processInvite_afterGrant w h inv [] s1).state,
        [Event.readFile ("sql/" ++ f) (Res.ok script),
          Event.execScript f script inv.ID h.Code none] ++
        (processInvite_afterGrant w h inv [] s1).trace⟩)) := by
  refine ⟨_, rfl, ?_⟩
  unfold processInvite_step2 unitRoleScript caseAccessScript
  dsimp only
  by_cases hc : inv.CaseID = 0
  · simp only [hc, if_true]
    rcases runsql_shape w h "invite_user_in_a_role_in_a_unit.sql" inv s with
      ⟨e, s1, hr⟩ | ⟨script, r, s1, hr⟩
    · rw [hr]
      exact Or.inl ⟨e, s1, rfl⟩
    · rw [hr]
      cases r with
      | some e => exact Or.inr (Or.inl ⟨script, e, s1, rfl⟩)
      | none => exact Or.inr (Or.inr ⟨script, s1, rfl⟩)
  · simp only [hc, if_false]
    rcases runsql_shape w h "1_invite_user_to_a_case.sql" inv s with
      ⟨e, s1, hr⟩ | ⟨script, r, s1, hr⟩
    · rw [hr]
      exact Or.inl ⟨e, s1, rfl⟩
    · rw [hr]
      cases r with
      | some e => exact Or.inr (Or.inl ⟨script, e, s1, rfl⟩)
      | none => exact Or.inr (Or.inr ⟨script, s1, rfl⟩)

theorem step1_shape (w : World σ) (h : handler) (inv : invite) (s : σ) :
    (∃ x s1, processInvite_step1 w h inv [] s =
      ⟨(processInvite_step2 w h inv [] s1).val, (processInvite_step2 w h inv [] s1).state,
        [Event.queryInvitationID inv.ID (Res.ok x)] ++
        (processInvite_step2 w h inv [] s1).trace⟩) ∨
    (∃ e0 e s1, processInvite_step1 w h inv [] s =
      ⟨[⟨inv.ID, e⟩], s1, [Event.queryInvitationID inv.ID (Res.err e0),
        Event.queryRoleID inv.Role (Res.err e)]⟩) ∨
    (∃ e0 rid e s1, processInvite_step1 w h inv [] s =
      ⟨[⟨inv.ID, e⟩], s1, [Event.queryInvitationID inv.ID (Res.err e0),
        Event.queryRoleID inv.Role (Res.ok rid), Event.execInsert inv rid (some e)]⟩) ∨
    (∃ e0 rid s1, processInvite_step1 w h inv [] s =
      ⟨(processInvite_step2 w h inv [] s1).val, (processInvite_step2 w h inv [] s1).state,
        [Event.queryInvitationID inv.ID (Res.err e0),
          Event.queryRoleID inv.Role (Res.ok rid), Event.execInsert inv rid none] ++
        (processInvite_step2 w h inv [] s1).trace⟩) := by
  unfold processInvite_step1
  dsimp only
  obtain ⟨r, s1, hx⟩ := probe_shape w inv.ID s
  rw [hx]
  cases r with
  | ok x => exact Or.inl ⟨x, s1, rfl⟩
  | err e0 =>
    dsimp only
    rcases step1Insert_shape w inv s1 with ⟨e, s2, hi⟩ | ⟨rid, r, s2, hi⟩
    · rw [hi]
      exact Or.inr (Or.inl ⟨e0, e, s2, rfl⟩)
    · rw [hi]
      cases r with
      | some e => exact Or.inr (Or.inr (Or.inl ⟨e0, rid, e, s2, rfl⟩))
      | none => exact Or.inr (Or.inr (Or.inr ⟨e0, rid, s2, rfl⟩))

theorem body_shape (w : World σ) (h : handler) (inv : invite) (s : σ) :
    (∃ dt url e s1, dt.Valid = true ∧ processInvite_body w h inv [] s =
      ⟨[⟨inv.ID, e⟩], s1, [Event.queryProcessedDatetime inv.ID (Res.ok dt),
        Event.newRequest url [inv.ID] (some e)]⟩) ∨
    (∃ dt url e s1, dt.Valid = true ∧ processInvite_body w h inv [] s =
      ⟨[⟨inv.ID, e⟩], s1, [Event.queryProcessedDatetime inv.ID (Res.ok dt),
        Event.newRequest url [inv.ID] none, Event.httpDo url [inv.ID] (Res.err e)]⟩) ∨
    (∃ dt url code s1, dt.Valid = true ∧ processInvite_body w h inv [] s =
      ⟨[], s1, [Event.queryProcessedDatetime inv.ID (Res.ok dt),
        Event.newRequest url [inv.ID] none, Event.httpDo url [inv.ID] (Res.ok code)]⟩) ∨
    (∃ r s1, (Event.queryProcessedDatetime inv.ID r).confirms = false ∧
      processInvite_body w h inv [] s =
      ⟨(processInvite_step1 w h inv [] s1).val, (processInvite_step1 w h inv [] s1).state,
        [Event.queryProcessedDatetime inv.ID r] ++ (processInvite_step1 w h inv [] s1).trace⟩) := by
  unfold processInvite_body
  dsimp only
  obtain ⟨r, s1, hc⟩ := check_shape w inv.ID s
  rw [hc]
  cases r with
  | err e => exact Or.inr (Or.inr (Or.inr ⟨Res.err e, s1, rfl, rfl⟩))
  | ok dt =>
    dsimp only
    by_cases hv : dt.Valid = true
    · simp only [hv, if_true]
      obtain ⟨url, ⟨e, hm⟩ | ⟨e, s2, hm⟩ | ⟨code, s2, hm⟩⟩ := mark_shape w h [inv.ID] s1 <;>
        rw [hm] <;> dsimp only
      · exact Or.inl ⟨dt, url, e, s1, hv, by simp [multierror_Append, multierror_Prefixed]⟩
      · exact Or.inr (Or.inl ⟨dt, url, e, s2, hv, by simp [multierror_Append, multierror_Prefixed]⟩)
      · exact Or.inr (Or.inr (Or.inl ⟨dt, url, code, s2, hv, rfl⟩))
    · simp only [hv]
      refine Or.inr (Or.inr (Or.inr ⟨Res.ok dt, s1, ?_, by simp⟩))
      simpa [Event.confirms, Res.validTime] using hv


/-- Every iteration of the loop follows one of the exit paths. -/
theorem body_path (w : World σ) (h : handler) (inv : invite) (s : σ) :
    BodyPath h inv (processInvite_body w h inv [] s).val
      (processInvite_body w h inv [] s).trace := by
  rcases body_shape w h inv s with ⟨dt, url, e, s1, hv, hb⟩ | ⟨dt, url, e, s1, hv, hb⟩ |
    ⟨dt, url, code, s1, hv, hb⟩ | ⟨r, s1, hr, hb⟩ <;> rw [hb] <;> dsimp only
  · exact BodyPath.doneRequestFailed dt url e hv
  · exact BodyPath.donePutFailed dt url e hv
  · exact BodyPath.doneReported dt url code hv
  · have hreg : ∀ (X : List Event) (s2 : σ), Registered inv X →
        BodyPath h inv (processInvite_step2 w h inv [] s2).val
          (Event.queryProcessedDatetime inv.ID r :: (X ++ (processInvite_step2 w h inv [] s2).trace)) := by
      intro X s2 hX
      obtain ⟨f, hf, h2⟩ := step2_shape w h inv s2
      have hf' : f = grantScript inv := hf
      subst hf'
      rcases h2 with ⟨e, s3, h2⟩ | ⟨script, e, s3, h2⟩ | ⟨script, s3, h2⟩ <;> rw [h2] <;>
        dsimp only
      · exact BodyPath.grantReadFailed r X e hr hX
      · exact BodyPath.grantExecFailed r X script e hr hX
      · rcases afterGrant_shape w h inv s3 with ⟨e, s4, h3⟩ | ⟨dt, url, e, s4, h3⟩ |
          ⟨dt, url, e, s4, h3⟩ | ⟨dt, url, code, s4, h3⟩ <;> rw [h3] <;> dsimp only
        · exact BodyPath.checkFailed r X script e hr hX
        · exact BodyPath.requestFailed r X script dt url e hr hX
        · exact BodyPath.putFailed r X script dt url e hr hX
        · rcases step4_shape w h inv s4 with ⟨hc, h4⟩ | ⟨hc, e, s5, h4⟩ |
            ⟨hc, script2, e, s5, h4⟩ | ⟨hc, script2, s5, h4⟩ <;> rw [h4] <;> dsimp only
          · simpa using BodyPath.reportedNoCase r X script dt url code hc hr hX
          · simpa using BodyPath.notifyReadFailed r X script dt url code e hc hr hX
          · simpa using BodyPath.notifyExecFailed r X script dt url code script2 e hc hr hX
          · simpa using BodyPath.notified r X script dt url code script2 hc hr hX
    rcases step1_shape w h inv s1 with ⟨x, s2, h1⟩ | ⟨e0, e, s2, h1⟩ | ⟨e0, rid, e, s2, h1⟩ |
      ⟨e0, rid, s2, h1⟩ <;> rw [h1] <;> dsimp only
    · simpa using hreg _ s2 (Registered.existing x)
    · simpa using BodyPath.roleFailed r e0 e hr
    · simpa using BodyPath.insertFailed r e0 rid e hr
    · simpa using hreg _ s2 (Registered.inserted e0 rid)


/-! ### Script names -/

theorem grantScript_unit {inv : invite} (hc : inv.CaseID = 0) :
    grantScript inv = unitRoleScript := by
  simp [grantScript, hc]

theorem grantScript_case {inv : invite} (hc : inv.CaseID ≠ 0) :
    grantScript inv = caseAccessScript := by
  simp [grantScript, hc]

/-- Two script paths are equal only for equal file names. -/
theorem sql_path_inj (a b : String) : ("sql/" ++ a = "sql/" ++ b) ↔ a = b := by
  constructor
  · intro hab
    have hd := congrArg String.data hab
    simp only [String.data_append, List.append_cancel_left_eq] at hd
    exact String.ext hd
  · intro hab
    rw [hab]

theorem unit_ne_case : unitRoleScript ≠ caseAccessScript := by decide

theorem unit_ne_message : unitRoleScript ≠ caseMessageScript := by decide

theorem case_ne_unit : caseAccessScript ≠ unitRoleScript := by decide

theorem case_ne_message : caseAccessScript ≠ caseMessageScript := by decide

theorem message_ne_unit : caseMessageScript ≠ unitRoleScript := by decide

theorem message_ne_case : caseMessageScript ≠ caseAccessScript := by decide

theorem grantScript_ne_message (inv : invite) : grantScript inv ≠ caseMessageScript := by
  unfold grantScript
  split <;> decide

/-! ### Facts about one iteration, read off the exit paths -/

/-- An iteration adds an entry exactly when its last call failed, and the entry
wraps the error of that call. -/
theorem body_lastError (w : World σ) (h : handler) (inv : invite) (s : σ) :
    (processInvite_body w h inv [] s).val =
      recorded inv.ID (lastError (processInvite_body w h inv [] s).trace) := by
  have hp := body_path w h inv s
  generalize (processInvite_body w h inv [] s).val = v at hp ⊢
  generalize (processInvite_body w h inv [] s).trace = t at hp ⊢
  cases hp
  all_goals try cases ‹Registered inv _›
  all_goals simp only [recorded, lastError, List.getLast?_cons_cons, List.getLast?_singleton,
    Event.errorOf, multierror_Prefixed, Res.errorOf, List.singleton_append, List.cons_append,
    List.nil_append]

/-- An iteration whose own calls succeed contains the answered PUT of its
identifier. -/
theorem body_isolation (w : World σ) (h : handler) (inv : invite) (s : σ) :
    OwnStepsSucceed (processInvite_body w h inv [] s).trace →
      ReportedDone inv.ID (processInvite_body w h inv [] s).trace := by
  have hp := body_path w h inv s
  generalize (processInvite_body w h inv [] s).val = v at hp ⊢
  generalize (processInvite_body w h inv [] s).trace = t at hp ⊢
  have hne := grantScript_ne_message inv
  cases hp
  all_goals try cases ‹Registered inv _›
  all_goals simp only [OwnStepsSucceed, ReportedDone, Event.failed, Event.errorOf, Res.errorOf,
    Event.isExistsProbe, Event.isRunsqlOf, List.tail_cons, List.mem_cons, List.cons_append,
    List.nil_append, List.mem_singleton, forall_eq_or_imp, forall_eq, Option.isSome_some,
    Option.isSome_none, beq_iff_eq, sql_path_inj, hne, List.not_mem_nil, false_or, or_false, or_true,
    true_or, imp_false, Bool.false_eq_true, not_true_eq_false, not_false_eq_true, false_implies,
    implies_true, true_implies, and_true, true_and, and_false, false_and, forall_const,
    IsEmpty.forall_iff, Event.httpDo.injEq, List.cons.injEq, Res.ok.injEq, exists_and_left,
    exists_eq_left', exists_eq', exists_eq, reduceCtorEq, exists_false, exists_const]

/-- Every iteration starts with the completion check of its item. -/
theorem body_starts_with_check (w : World σ) (h : handler) (inv : invite) (s : σ) :
    ∃ r rest, (processInvite_body w h inv [] s).trace =
      Event.queryProcessedDatetime inv.ID r :: rest := by
  have hp := body_path w h inv s
  generalize (processInvite_body w h inv [] s).val = v at hp ⊢
  generalize (processInvite_body w h inv [] s).trace = t at hp ⊢
  cases hp
  all_goals exact ⟨_, _, rfl⟩

set_option maxHeartbeats 1000000 in
theorem body_reports (w : World σ) (h : handler) (inv : invite) (s : σ) :
    reporterCalls (processInvite_body w h inv [] s).trace =
        (if judgedComplete (processInvite_body w h inv [] s).trace then 1 else 0) ∧
      ∀ e ∈ (processInvite_body w h inv [] s).trace, e.isReport = true →
        e.reportIds = [inv.ID] := by
  have hp := body_path w h inv s
  generalize (processInvite_body w h inv [] s).val = v at hp ⊢
  generalize (processInvite_body w h inv [] s).trace = t at hp ⊢
  cases hp
  all_goals try cases ‹Registered inv _›
  all_goals simp_all only [reporterCalls, Event.startsReport, Bool.false_eq_true,
    not_false_eq_true, List.countP_cons_of_neg, List.countP_cons_of_pos, List.countP_nil, zero_add,
    judgedComplete, List.head?_cons, Option.any_some, Event.confirms, Res.validTime,
    List.tail_cons, List.any_cons, Event.isCheckOk, List.any_nil, Bool.or_self, Bool.or_false,
    ite_true, List.mem_cons, List.mem_singleton, Event.isReport, Event.reportIds,
    forall_eq_or_imp, List.ne_cons_self, implies_true, imp_self, and_self, ite_false,
    List.singleton_append, List.cons_append, Res.errorOf, Option.isNone_some, Option.isNone_none,
    Bool.or_true, ne_eq, List.nil_append, List.not_mem_nil, false_implies, true_and, and_true,
    forall_const, IsEmpty.forall_iff, forall_eq, reduceCtorEq, not_true_eq_false]

set_option maxHeartbeats 1000000 in
theorem body_noCase (w : World σ) (h : handler) (inv : invite) (s : σ) (hc : inv.CaseID = 0) :
    runsqlCalls caseAccessScript (processInvite_body w h inv [] s).trace = 0 ∧
    runsqlCalls caseMessageScript (processInvite_body w h inv [] s).trace = 0 ∧
    (∀ e ∈ (processInvite_body w h inv [] s).trace,
      e.isRunsqlOf caseAccessScript = false ∧ e.isRunsqlOf caseMessageScript = false) ∧
    runsqlCalls unitRoleScript (processInvite_body w h inv [] s).trace =
      (if reachesStep2 (processInvite_body w h inv [] s).trace then 1 else 0) := by
  have hp := body_path w h inv s
  generalize (processInvite_body w h inv [] s).val = v at hp ⊢
  generalize (processInvite_body w h inv [] s).trace = t at hp ⊢
  cases hp
  all_goals try contradiction
  all_goals try cases ‹Registered inv _›
  all_goals simp_all only [runsqlCalls, Event.startsRunsql, Bool.false_eq_true,
    not_false_eq_true, List.countP_cons_of_neg, List.countP_nil, List.mem_cons,
    List.mem_singleton, Event.isRunsqlOf, forall_eq_or_imp, and_self, implies_true, reachesStep2,
    List.head?_cons, Option.any_some, Event.confirms, Res.validTime, Bool.not_true,
    Event.isRegister, Event.failed, Event.errorOf, Res.errorOf, Bool.not_and, Option.bnot_isSome,
    List.all_cons, Bool.not_false, Option.isNone_none, Bool.or_self, Option.isNone_some,
    Bool.or_false, List.all_nil, Bool.and_self, Bool.and_true, ite_false, Bool.true_or,
    Bool.and_false, Bool.or_true, grantScript_unit hc, List.singleton_append, beq_iff_eq,
    sql_path_inj, unit_ne_case, unit_ne_message, beq_eq_false_iff_ne, ne_eq, beq_self_eq_true,
    List.countP_cons_of_pos, zero_add, ite_true, List.cons_append, List.nil_append,
    List.not_mem_nil, false_implies, true_and, and_true, forall_const, IsEmpty.forall_iff, forall_eq,
    reduceCtorEq, not_true_eq_false]

/-! ### Batches -/

theorem processInvite_nil (w : World σ) (h : handler) (s : σ) :
    processInvite w h [] s = ⟨[], s, []⟩ := rfl

theorem processInvite_append (w : World σ) (h : handler) (pre post : List invite) (s : σ) :
    processInvite w h (pre ++ post) s =
      ⟨(processInvite w h pre s).val ++ (processInvite w h post (processInvite w h pre s).state).val,
        (processInvite w h post (processInvite w h pre s).state).state,
        (processInvite w h pre s).trace ++
          (processInvite w h post (processInvite w h pre s).state).trace⟩ := by
  induction pre generalizing s with
  | nil => simp [processInvite_nil]
  | cons p pre ih =>
    rw [List.cons_append, processInvite_cons, ih, processInvite_cons]
    simp

/-- The split of a batch, stated with `itemRun`. -/
theorem processInvite_item (w : World σ) (h : handler) (pre : List invite) (inv : invite)
    (post : List invite) (s : σ) :
    processInvite w h (pre ++ inv :: post) s =
      ⟨(processInvite w h pre s).val ++ (itemRun w h pre inv s).val ++
          (processInvite w h post (itemRun w h pre inv s).state).val,
        (processInvite w h post (itemRun w h pre inv s).state).state,
        (processInvite w h pre s).trace ++ (itemRun w h pre inv s).trace ++
          (processInvite w h post (itemRun w h pre inv s).state).trace⟩ :=
  processInvite_split w h pre inv post s

theorem itemRun_cons (w : World σ) (h : handler) (p : invite) (pre : List invite) (inv : invite)
    (s : σ) :
    itemRun w h (p :: pre) inv s = itemRun w h pre inv (processInvite_body w h p [] s).state := by
  unfold itemRun
  rw [processInvite_cons]

/-- The aggregate of a batch is nil exactly when no item added an entry. -/
theorem processInvite_val_nil_iff (w : World σ) (h : handler) (invites : List invite) (s : σ) :
    (processInvite w h invites s).val = [] ↔
      ∀ pre inv post, invites = pre ++ inv :: post → (itemRun w h pre inv s).val = [] := by
  induction invites generalizing s with
  | nil =>
    simp [processInvite_nil]
  | cons p rest ih =>
    rw [processInvite_cons]
    simp only [List.append_eq_nil]
    constructor
    · rintro ⟨hb, hr⟩ pre inv post heq
      cases pre with
      | nil =>
        simp only [List.nil_append, List.cons.injEq] at heq
        obtain ⟨rfl, -⟩ := heq
        simpa [itemRun, processInvite_nil] using hb
      | cons q pre =>
        simp only [List.cons_append, List.cons.injEq] at heq
        obtain ⟨rfl, hrest⟩ := heq
        rw [itemRun_cons]
        exact (ih _).1 hr pre inv post hrest
    · intro hall
      refine ⟨?_, ?_⟩
      · simpa [itemRun, processInvite_nil] using hall [] p rest rfl
      · refine (ih _).2 ?_
        intro pre inv post heq
        have := hall (p :: pre) inv post (by simp [heq])
        rwa [itemRun_cons] at this

set_option maxHeartbeats 2000000 in
theorem body_case (w : World σ) (h : handler) (inv : invite) (s : σ)
    (hcase : inv.CaseID ≠ 0)
    (hnew : (processInvite_body w h inv [] s).trace.head?.any Event.confirms = false)
    (hreg : ∀ e ∈ (processInvite_body w h inv [] s).trace, e.isRegister = true → e.failed = false)
    (hgrant : ∀ e ∈ (processInvite_body w h inv [] s).trace,
      e.isRunsqlOf caseAccessScript = true → e.failed = false)
    (hcheck : ∀ e ∈ (processInvite_body w h inv [] s).trace.tail,
      e.isCheck = true → e.confirms = true) :
    ∃ a N, (processInvite_body w h inv [] s).trace = a ++ N ∧
      runsqlCalls caseAccessScript a = 1 ∧
      runsqlCalls caseAccessScript N = 0 ∧
      (∃ c ∈ a.tail, c.confirms = true) ∧
      (∀ e ∈ a, e.isRunsqlOf caseMessageScript = false) ∧
      (∀ e ∈ N, e.isRunsqlOf caseMessageScript = true) ∧
      ((ReportedDone inv.ID a ∧ runsqlCalls caseMessageScript N = 1 ∧
          (processInvite_body w h inv [] s).val = recorded inv.ID (lastError N)) ∨
        (¬ ReportedDone inv.ID a ∧ N = [] ∧
          ∃ e, lastError a = some e ∧ (processInvite_body w h inv [] s).val = [⟨inv.ID, e⟩])) := by
  have hp := body_path w h inv s
  generalize (processInvite_body w h inv [] s).val = v at hp ⊢
  generalize (processInvite_body w h inv [] s).trace = t at hp hnew hreg hgrant hcheck ⊢
  have hg := grantScript_case hcase
  cases hp
  case requestFailed r X script dt url e hr hX =>
    refine ⟨_, [], (List.append_nil _).symm, ?_⟩
    cases hX <;>
      simp_all [runsqlCalls, Event.startsRunsql, Event.isRunsqlOf, Event.confirms, Res.validTime,
        Event.isCheck, ReportedDone, lastError, Event.errorOf, Res.errorOf, sql_path_inj,
        case_ne_message]
  case putFailed r X script dt url e hr hX =>
    refine ⟨_, [], (List.append_nil _).symm, ?_⟩
    cases hX <;>
      simp_all [runsqlCalls, Event.startsRunsql, Event.isRunsqlOf, Event.confirms, Res.validTime,
        Event.isCheck, ReportedDone, lastError, Event.errorOf, Res.errorOf, sql_path_inj,
        case_ne_message]
  case notifyReadFailed r X script dt url code e hc hr hX =>
    refine ⟨Event.queryProcessedDatetime inv.ID r :: (X ++
        [Event.readFile ("sql/" ++ grantScript inv) (Res.ok script),
          Event.execScript (grantScript inv) script inv.ID h.Code none,
          Event.queryProcessedDatetime inv.ID (Res.ok dt),
          Event.newRequest url [inv.ID] none, Event.httpDo url [inv.ID] (Res.ok code)]),
      [Event.readFile ("sql/" ++ caseMessageScript) (Res.err e)], by simp, ?_⟩
    cases hX <;>
      simp_all [runsqlCalls, Event.startsRunsql, Event.isRunsqlOf, Event.confirms, Res.validTime,
        Event.isCheck, ReportedDone, lastError, Event.errorOf, Res.errorOf, sql_path_inj,
        case_ne_message, message_ne_case, recorded, multierror_Prefixed]
  case notifyExecFailed r X script dt url code script2 e hc hr hX =>
    refine ⟨Event.queryProcessedDatetime inv.ID r :: (X ++
        [Event.readFile ("sql/" ++ grantScript inv) (Res.ok script),
          Event.execScript (grantScript inv) script inv.ID h.Code none,
          Event.queryProcessedDatetime inv.ID (Res.ok dt),
          Event.newRequest url [inv.ID] none, Event.httpDo url [inv.ID] (Res.ok code)]),
      [Event.readFile ("sql/" ++ caseMessageScript) (Res.ok script2),
        Event.execScript caseMessageScript script2 inv.ID h.Code (some e)], by simp, ?_⟩
    cases hX <;>
      simp_all [runsqlCalls, Event.startsRunsql, Event.isRunsqlOf, Event.confirms, Res.validTime,
        Event.isCheck, ReportedDone, lastError, Event.errorOf, Res.errorOf, sql_path_inj,
        case_ne_message, message_ne_case, recorded, multierror_Prefixed]
  case notified r X script dt url code script2 hc hr hX =>
    refine ⟨Event.queryProcessedDatetime inv.ID r :: (X ++
        [Event.readFile ("sql/" ++ grantScript inv) (Res.ok script),
          Event.execScript (grantScript inv) script inv.ID h.Code none,
          Event.queryProcessedDatetime inv.ID (Res.ok dt),
          Event.newRequest url [inv.ID] none, Event.httpDo url [inv.ID] (Res.ok code)]),
      [Event.readFile ("sql/" ++ caseMessageScript) (Res.ok script2),
        Event.execScript caseMessageScript script2 inv.ID h.Code none], by simp, ?_⟩
    cases hX <;>
      simp_all [runsqlCalls, Event.startsRunsql, Event.isRunsqlOf, Event.confirms, Res.validTime,
        Event.isCheck, ReportedDone, lastError, Event.errorOf, Res.errorOf, sql_path_inj,
        case_ne_message, message_ne_case, recorded, multierror_Prefixed]
  all_goals try contradiction
  all_goals try cases ‹Registered inv _›
  all_goals
    simp_all [Event.isRunsqlOf, Event.confirms, Res.validTime, Event.isCheck, Event.failed,
      Event.errorOf, Res.errorOf, Event.isRegister, sql_path_inj]

/-! ### Facts used by single properties -/

theorem mark_facts (w : World σ) (h : handler) (ids : List String) (s : σ) :
    reporterCalls (markInvitesProcessed w h ids s).trace = 1 ∧
    (∀ e ∈ (markInvitesProcessed w h ids s).trace,
      e.isReport = true ∧ e.reportIds = ids ∧ e.isRegister = false ∧ e.isScript = false) ∧
    ((markInvitesProcessed w h ids s).state = s ∨
      ∃ url, (markInvitesProcessed w h ids s).state = (w.httpDo s url ids).2) := by
  unfold markInvitesProcessed
  dsimp only
  cases hn : w.newRequest
      (h.Domain ++ "/api/pending-invitations/done?accessToken=" ++ h.APIAccessToken) with
  | some e =>
    simp [reporterCalls, Event.startsReport, Event.isReport, Event.reportIds, Event.isRegister,
      Event.isScript]
  | none =>
    dsimp only
    cases hq : (w.httpDo s
        (h.Domain ++ "/api/pending-invitations/done?accessToken=" ++ h.APIAccessToken) ids).1 <;>
      refine ⟨?_, ?_, Or.inr ⟨_, rfl⟩⟩ <;>
      simp [reporterCalls, Event.startsReport, Event.isReport, Event.reportIds, Event.isRegister,
        Event.isScript]

/-- The iteration of an item whose completion check returns a valid time. -/
theorem body_already_done (w : World σ) (h : handler) (inv : invite) (s : σ) (dt : NullTime)
    (hdone : (w.queryProcessedDatetime s inv.ID).1 = Res.ok dt) (hvalid : dt.Valid = true) :
    (processInvite_body w h inv [] s).trace =
        Event.queryProcessedDatetime inv.ID (Res.ok dt) ::
          (markInvitesProcessed w h [inv.ID] (w.queryProcessedDatetime s inv.ID).2).trace ∧
    (processInvite_body w h inv [] s).state =
        (markInvitesProcessed w h [inv.ID] (w.queryProcessedDatetime s inv.ID).2).state := by
  unfold processInvite_body checkProcessedDatetime
  simp only [hdone, hvalid, if_true]
  cases hm : (markInvitesProcessed w h [inv.ID] (w.queryProcessedDatetime s inv.ID).2).val <;>
    simp

theorem simWorld_check_readonly (s0 : Sim) (id : String) :
    (simWorld.queryProcessedDatetime s0 id).2.rows = s0.rows := by
  simp only [simWorld]
  split
  · rfl
  · split <;> rfl

theorem simWorld_put_readonly (s0 : Sim) (url : String) (ids : List String) :
    (simWorld.httpDo s0 url ids).2.rows = s0.rows := by
  simp only [simWorld]
  split <;> rfl

theorem body_existing (w : World σ) (h : handler) (inv : invite) (s : σ) (dt : NullTime)
    (x : String)
    (hcheck : (w.queryProcessedDatetime s inv.ID).1 = Res.ok dt) (hnull : dt.Valid = false)
    (hexists : (w.queryInvitationID (w.queryProcessedDatetime s inv.ID).2 inv.ID).1 = Res.ok x) :
    ∃ T, (processInvite_body w h inv [] s).trace =
      Event.queryProcessedDatetime inv.ID (Res.ok dt) ::
        Event.queryInvitationID inv.ID (Res.ok x) :: T := by
  unfold processInvite_body processInvite_step1 checkProcessedDatetime
    checkIfInvitationExistsAlready
  simp only [hcheck, hnull, hexists, Bool.false_eq_true, if_false]
  exact ⟨_, rfl⟩

set_option maxHeartbeats 1000000 in
theorem body_resume (w : World σ) (h : handler) (inv : invite) (s : σ) (c : Res NullTime)
    (x : String) (T : List Event)
    (ht : (processInvite_body w h inv [] s).trace =
      Event.queryProcessedDatetime inv.ID c :: Event.queryInvitationID inv.ID (Res.ok x) :: T) :
    (∃ r rest, T = Event.readFile ("sql/" ++ grantScript inv) r :: rest) ∧
    ∀ e ∈ T, e.isRegister = false := by
  have hp := body_path w h inv s
  rw [ht] at hp
  generalize (processInvite_body w h inv [] s).val = v at hp
  generalize hg : Event.queryProcessedDatetime inv.ID c ::
    Event.queryInvitationID inv.ID (Res.ok x) :: T = t at hp
  cases hp
  all_goals try cases ‹Registered inv _›
  all_goals simp at hg
  all_goals (obtain ⟨-, -, rfl⟩ := hg)
  all_goals simp [Event.isRegister]

/-- The iteration of a new item whose role is unknown, when the three SELECT
queries leave the state alone. -/
theorem body_unknown_role (w : World σ) (h : handler) (bad : invite) (s : σ)
    (r : Res NullTime) (e1 e : String)
    (hchk : w.queryProcessedDatetime s bad.ID = (r, s)) (hr : r.validTime = false)
    (hprobe : w.queryInvitationID s bad.ID = (Res.err e1, s))
    (hrole : w.queryRoleID s bad.Role = (Res.err e, s)) :
    processInvite_body w h bad [] s =
      ⟨[⟨bad.ID, e⟩], s,
        [Event.queryProcessedDatetime bad.ID r, Event.queryInvitationID bad.ID (Res.err e1),
          Event.queryRoleID bad.Role (Res.err e)]⟩ := by
  unfold processInvite_body processInvite_step1 checkProcessedDatetime
    checkIfInvitationExistsAlready step1Insert lookupRoleID
  simp only [hchk, hprobe, hrole]
  cases r with
  | err e0 => rfl
  | ok dt =>
    have hv : dt.Valid = false := hr
    simp only [hv, Bool.false_eq_true, if_false]
    rfl

/-- The push loop runs through a prefix without failure and continues. -/
theorem inviteUsertoUnit_append (w : World σ) (h : handler) (pre rest : List invite) (s : σ)
    (hpre : (inviteUsertoUnit w h pre s).val = none) :
    inviteUsertoUnit w h (pre ++ rest) s =
      ⟨(inviteUsertoUnit w h rest (inviteUsertoUnit w h pre s).state).val,
        (inviteUsertoUnit w h rest (inviteUsertoUnit w h pre s).state).state,
        (inviteUsertoUnit w h pre s).trace ++
          (inviteUsertoUnit w h rest (inviteUsertoUnit w h pre s).state).trace⟩ := by
  induction pre generalizing s with
  | nil => simp [inviteUsertoUnit]
  | cons p pre ih =>
    simp only [List.cons_append, inviteUsertoUnit] at hpre ⊢
    cases ha : (step1Insert w p s).val with
    | some e => simp [ha] at hpre
    | none =>
      simp only [ha] at hpre ⊢
      cases hb : (runsql w h "invite_user_in_a_role_in_a_unit.sql" p (step1Insert w p s).state).val with
      | some e => simp [hb] at hpre
      | none =>
        simp only [hb, List.append_eq] at hpre ⊢
        rw [ih _ hpre]
        simp

/-- The push loop stops at a failing first item. -/
theorem inviteUsertoUnit_failed_head (w : World σ) (h : handler) (bad : invite)
    (post : List invite) (s : σ) (e : String)
    (hbad : (inviteUsertoUnit w h [bad] s).val = some e) :
    inviteUsertoUnit w h (bad :: post) s = inviteUsertoUnit w h [bad] s := by
  simp only [inviteUsertoUnit] at hbad ⊢
  cases ha : (step1Insert w bad s).val with
  | some e1 => simp
  | none =>
    simp only [ha] at hbad ⊢
    cases hb : (runsql w h "invite_user_in_a_role_in_a_unit.sql" bad (step1Insert w bad s).state).val with
    | some e1 => simp
    | none => simp [hb] at hbad

/-! ## The properties -/

/-- C1 (failure isolation in the pull path).  For every behaviour of the
collaborators, every batch `pre ++ inv :: post` and every starting state: the
calls of the batch are the calls made for `pre`, then the calls made for `inv`,
then the calls made for `post`; the calls made for `inv` start with its
completion check, whatever happened to the items of `pre`; and when every call
made for `inv` after that check was answered without error (the existence
probe and the case notification apart), the upstream received and answered a
PUT carrying exactly `[inv.ID]`. -/
theorem processInvite_failure_isolation (w : World σ) (h : handler) (pre : List invite)
    (inv : invite) (post : List invite) (s : σ) :
    (processInvite w h (pre ++ inv :: post) s).trace =
        (processInvite w h pre s).trace ++ (itemRun w h pre inv s).trace ++
          (processInvite w h post (itemRun w h pre inv s).state).trace ∧
    (∃ r rest, (itemRun w h pre inv s).trace = Event.queryProcessedDatetime inv.ID r :: rest) ∧
    (OwnStepsSucceed (itemRun w h pre inv s).trace →
      ReportedDone inv.ID (itemRun w h pre inv s).trace) := by
  refine ⟨?_, ?_, ?_⟩
  · rw [processInvite_item]
  · exact body_starts_with_check w h inv _
  · exact body_isolation w h inv _

/-- C1, a concrete run: in the batch `[a3, a1]` the item `a3` fails (unknown
role); every call made for `a1` succeeds and `a1` is reported done. -/
theorem processInvite_failure_isolation_witness :
    (processInvite simWorld h0 [invA3, invA1] sim0).val = [⟨"a3", errNoRows⟩] ∧
    ReportedDone "a1" (itemRun simWorld h0 [invA3] invA1 sim0).trace :=
  ⟨by decide,
    (processInvite_failure_isolation simWorld h0 [invA3] invA1 [] sim0).2.2 (by
      unfold OwnStepsSucceed
      decide)⟩

/-- C2 (idempotent redelivery).  Take any batch `pre ++ inv :: post` and any
behaviour of the collaborators in which the completion check of `inv` returns
a non-NULL timestamp without error.  Then the calls made for `inv` are that
check followed by one call of `markInvitesProcessed` with `[inv.ID]`: no role
lookup, no INSERT, no script.  Moreover, for any part `store` of the
collaborator state that SELECT queries and the upstream PUT leave alone,
`store` is the same before and after the item. -/
theorem processInvite_idempotent_redelivery {α : Type} (w : World σ) (h : handler)
    (pre : List invite) (inv : invite) (post : List invite) (s : σ) (store : σ → α)
    (dt : NullTime)
    (hread : ∀ s0 id, store (w.queryProcessedDatetime s0 id).2 = store s0)
    (hput : ∀ s0 url ids, store (w.httpDo s0 url ids).2 = store s0)
    (hdone : (w.queryProcessedDatetime (processInvite w h pre s).state inv.ID).1 = Res.ok dt)
    (hvalid : dt.Valid = true) :
    (processInvite w h (pre ++ inv :: post) s).trace =
        (processInvite w h pre s).trace ++ (itemRun w h pre inv s).trace ++
          (processInvite w h post (itemRun w h pre inv s).state).trace ∧
    (itemRun w h pre inv s).trace =
        Event.queryProcessedDatetime inv.ID (Res.ok dt) ::
          (markInvitesProcessed w h [inv.ID]
            (w.queryProcessedDatetime (processInvite w h pre s).state inv.ID).2).trace ∧
    (∀ e ∈ (itemRun w h pre inv s).trace, e.isRegister = false ∧ e.isScript = false) ∧
    reporterCalls (itemRun w h pre inv s).trace = 1 ∧
    (∀ e ∈ (itemRun w h pre inv s).trace, e.isReport = true → e.reportIds = [inv.ID]) ∧
    store (itemRun w h pre inv s).state = store (processInvite w h pre s).state := by
  obtain ⟨ht, hs⟩ := body_already_done w h inv (processInvite w h pre s).state dt hdone hvalid
  obtain ⟨hcount, hall, hstate⟩ := mark_facts w h [inv.ID]
    (w.queryProcessedDatetime (processInvite w h pre s).state inv.ID).2
  refine ⟨by rw [processInvite_item], ht, ?_, ?_, ?_, ?_⟩
  · intro e he
    rw [itemRun, ht] at he
    rcases List.mem_cons.1 he with rfl | he
    · simp [Event.isRegister, Event.isScript]
    · exact ⟨(hall e he).2.2.1, (hall e he).2.2.2⟩
  · rw [itemRun, ht]
    simpa [reporterCalls, Event.startsReport] using hcount
  · intro e he hrep
    rw [itemRun, ht] at he
    rcases List.mem_cons.1 he with rfl | he
    · simp [Event.isReport] at hrep
    · exact (hall e he).2.1
  · rw [itemRun, hs]
    rcases hstate with hst | ⟨url, hst⟩
    · rw [hst, hread]
    · rw [hst, hput, hread]

/-- C2, a concrete run (scenario C): `a1` is submitted a second time after a
first successful run; the second run makes the completion check and one
re-report of `a1`, and the invitation table is unchanged. -/
theorem processInvite_idempotent_redelivery_witness :
    (itemRun simWorld h0 [invA1] invA1 sim0).trace =
      [Event.queryProcessedDatetime "a1" (Res.ok ⟨1000, true⟩),
        Event.newRequest "https://case/api/pending-invitations/done?accessToken=tok" ["a1"] none,
        Event.httpDo "https://case/api/pending-invitations/done?accessToken=tok" ["a1"]
          (Res.ok 200)] ∧
    (itemRun simWorld h0 [invA1] invA1 sim0).state.rows =
      (processInvite simWorld h0 [invA1] sim0).state.rows :=
  ⟨by decide,
    (processInvite_idempotent_redelivery simWorld h0 [invA1] invA1 [] sim0 (fun s0 => s0.rows)
      ⟨1000, true⟩ simWorld_check_readonly simWorld_put_readonly (by decide) rfl).2.2.2.2.2⟩

/-- C3 (resume after a partial run).  Take any batch `pre ++ inv :: post` and
any behaviour of the collaborators in which, when `inv` is reached, its
completion check returns a NULL timestamp without error and its existence
probe succeeds.  Then the calls made for `inv` are the check, the probe, and
next the reading of the grant script selected by `CaseID`; no call of Register
(role lookup or INSERT) is made for it. -/
theorem processInvite_resumes_at_grant (w : World σ) (h : handler) (pre : List invite)
    (inv : invite) (post : List invite) (s : σ) (dt : NullTime) (x : String)
    (hcheck : (w.queryProcessedDatetime (processInvite w h pre s).state inv.ID).1 = Res.ok dt)
    (hnull : dt.Valid = false)
    (hexists : (w.queryInvitationID
      (w.queryProcessedDatetime (processInvite w h pre s).state inv.ID).2 inv.ID).1 = Res.ok x) :
    (processInvite w h (pre ++ inv :: post) s).trace =
        (processInvite w h pre s).trace ++ (itemRun w h pre inv s).trace ++
          (processInvite w h post (itemRun w h pre inv s).state).trace ∧
    (∃ r rest, (itemRun w h pre inv s).trace =
      Event.queryProcessedDatetime inv.ID (Res.ok dt) ::
        Event.queryInvitationID inv.ID (Res.ok x) ::
        Event.readFile ("sql/" ++ grantScript inv) r :: rest) ∧
    (∀ e ∈ (itemRun w h pre inv s).trace, e.isRegister = false) := by
  obtain ⟨T, hT⟩ := body_existing w h inv (processInvite w h pre s).state dt x hcheck hnull hexists
  obtain ⟨⟨r, rest, hr⟩, hreg⟩ := body_resume w h inv _ _ x T hT
  refine ⟨by rw [processInvite_item], ⟨r, rest, ?_⟩, ?_⟩
  · rw [itemRun, hT, hr]
  · intro e he
    rw [itemRun, hT] at he
    rcases List.mem_cons.1 he with rfl | he
    · rfl
    · rcases List.mem_cons.1 he with rfl | he
      · rfl
      · exact hreg e he

/-- C3, a concrete run: `a1` is registered but not complete; processing it
again goes from the two checks straight to the unit-role script. -/
theorem processInvite_resumes_at_grant_witness :
    (itemRun simWorld h0 [] invA1 simRegistered).trace =
      [Event.queryProcessedDatetime "a1" (Res.ok ⟨0, false⟩),
        Event.queryInvitationID "a1" (Res.ok "a1"),
        Event.readFile "sql/invite_user_in_a_role_in_a_unit.sql" (Res.ok "COMPLETE"),
        Event.execScript "invite_user_in_a_role_in_a_unit.sql" "COMPLETE" "a1" 1 none,
        Event.queryProcessedDatetime "a1" (Res.ok ⟨1000, true⟩),
        Event.newRequest "https://case/api/pending-invitations/done?accessToken=tok" ["a1"] none,
        Event.httpDo "https://case/api/pending-invitations/done?accessToken=tok" ["a1"]
          (Res.ok 200)] ∧
    ∀ e ∈ (itemRun simWorld h0 [] invA1 simRegistered).trace, e.isRegister = false :=
  ⟨by decide,
    (processInvite_resumes_at_grant simWorld h0 [] invA1 [] simRegistered ⟨0, false⟩ "a1"
      (by decide) rfl (by decide)).2.2⟩

/-- C4.  For every invitation with `CaseID = 0`, at any place of any batch
`pre ++ inv :: post` and for every behaviour of the collaborators: the calls
of the batch are those for `pre`, those for `inv` and those for `post`; the
calls made for `inv` contain no call of the case-access script and no call of
the case-notification script, and the unit-role script is run exactly once if
the item reaches step 2 and not at all otherwise. -/
theorem processInvite_no_case (w : World σ) (h : handler) (pre : List invite) (inv : invite)
    (post : List invite) (s : σ) (hc : inv.CaseID = 0) :
    (processInvite w h (pre ++ inv :: post) s).trace =
        (processInvite w h pre s).trace ++ (itemRun w h pre inv s).trace ++
          (processInvite w h post (itemRun w h pre inv s).state).trace ∧
    runsqlCalls caseAccessScript (itemRun w h pre inv s).trace = 0 ∧
    runsqlCalls caseMessageScript (itemRun w h pre inv s).trace = 0 ∧
    (∀ e ∈ (itemRun w h pre inv s).trace,
      e.isRunsqlOf caseAccessScript = false ∧ e.isRunsqlOf caseMessageScript = false) ∧
    runsqlCalls unitRoleScript (itemRun w h pre inv s).trace =
      (if reachesStep2 (itemRun w h pre inv s).trace then 1 else 0) :=
  ⟨by rw [processInvite_item], body_noCase w h inv _ hc⟩

/-- C4, a concrete run: `a1` has no case, reaches step 2 after `a2` and runs
the unit-role script once. -/
theorem processInvite_no_case_witness :
    invA1.CaseID = 0 ∧ reachesStep2 (itemRun simWorld h0 [invA2] invA1 sim0).trace = true ∧
    runsqlCalls unitRoleScript (itemRun simWorld h0 [invA2] invA1 sim0).trace = 1 ∧
    runsqlCalls caseAccessScript (itemRun simWorld h0 [invA2] invA1 sim0).trace = 0 ∧
    runsqlCalls caseMessageScript (itemRun simWorld h0 [invA2] invA1 sim0).trace = 0 :=
  ⟨by decide, by decide, by decide,
    (processInvite_no_case simWorld h0 [invA2] invA1 [] sim0 (by decide)).2.1,
    (processInvite_no_case simWorld h0 [invA2] invA1 [] sim0 (by decide)).2.2.1⟩

/-- C5 as stated fails: `a2` has a case, its registration, case-access grant
and completion check succeed, but the completion report fails in transport and
no notification is attempted. -/
theorem processInvite_no_notification_after_failed_report :
    invA2.CaseID ≠ 0 ∧
    runsqlCalls caseAccessScript (processInvite simWorld h0 [invA2] simDown).trace = 1 ∧
    Event.queryProcessedDatetime "a2" (Res.ok ⟨1000, true⟩) ∈
      (processInvite simWorld h0 [invA2] simDown).trace.tail ∧
    (∀ e ∈ (processInvite simWorld h0 [invA2] simDown).trace,
      (e.isRegister = true ∨ e.isRunsqlOf caseAccessScript = true) → e.failed = false) ∧
    runsqlCalls caseMessageScript (processInvite simWorld h0 [invA2] simDown).trace = 0 := by
  decide

/-- C5 (amended).  Take an invitation with `CaseID ≠ 0`, at any place of any
batch `pre ++ inv :: post` and for every behaviour of the collaborators, such
that among the calls made for it: the first completion check does not report
it complete, no call of Register fails, no call of the case-access script
fails, and every later completion check returns a non-NULL timestamp.  Then
the calls of the batch are those for `pre`, those for `inv` and those for
`post`, and the calls made for `inv` split into `a ++ N` where: `a` holds
exactly one run of the case-access script, a confirming completion check and
no call of the notification script; `N` holds only calls of the notification
script; and either the PUT carrying `[inv.ID]` was answered in `a`, `N` is
exactly one run of the notification script and the item adds to the aggregate
the error of that run if it failed; or the report failed, `N` is empty and the
item adds the error of the report. -/
theorem processInvite_case_item (w : World σ) (h : handler) (pre : List invite) (inv : invite)
    (post : List invite) (s : σ) (hcase : inv.CaseID ≠ 0)
    (hnew : (itemRun w h pre inv s).trace.head?.any Event.confirms = false)
    (hreg : ∀ e ∈ (itemRun w h pre inv s).trace, e.isRegister = true → e.failed = false)
    (hgrant : ∀ e ∈ (itemRun w h pre inv s).trace,
      e.isRunsqlOf caseAccessScript = true → e.failed = false)
    (hcheck : ∀ e ∈ (itemRun w h pre inv s).trace.tail, e.isCheck = true → e.confirms = true) :
    (processInvite w h (pre ++ inv :: post) s).trace =
        (processInvite w h pre s).trace ++ (itemRun w h pre inv s).trace ++
          (processInvite w h post (itemRun w h pre inv s).state).trace ∧
    ∃ a N, (itemRun w h pre inv s).trace = a ++ N ∧
      runsqlCalls caseAccessScript a = 1 ∧
      runsqlCalls caseAccessScript N = 0 ∧
      (∃ c ∈ a.tail, c.confirms = true) ∧
      (∀ e ∈ a, e.isRunsqlOf caseMessageScript = false) ∧
      (∀ e ∈ N, e.isRunsqlOf caseMessageScript = true) ∧
      ((ReportedDone inv.ID a ∧ runsqlCalls caseMessageScript N = 1 ∧
          (itemRun w h pre inv s).val = recorded inv.ID (lastError N)) ∨
        (¬ ReportedDone inv.ID a ∧ N = [] ∧
          ∃ e, lastError a = some e ∧ (itemRun w h pre inv s).val = [⟨inv.ID, e⟩])) :=
  ⟨by rw [processInvite_item], body_case w h inv _ hcase hnew hreg hgrant hcheck⟩

/-- C5, a concrete run (scenario B): `a2` has case 99 and is processed after
`a1`; all its steps succeed. -/
theorem processInvite_case_item_witness :
    (invA2.CaseID ≠ 0 ∧
      (itemRun simWorld h0 [invA1] invA2 sim0).trace.head?.any Event.confirms = false ∧
      (∀ e ∈ (itemRun simWorld h0 [invA1] invA2 sim0).trace,
        e.isRegister = true → e.failed = false) ∧
      (∀ e ∈ (itemRun simWorld h0 [invA1] invA2 sim0).trace,
        e.isRunsqlOf caseAccessScript = true → e.failed = false) ∧
      (∀ e ∈ (itemRun simWorld h0 [invA1] invA2 sim0).trace.tail,
        e.isCheck = true → e.confirms = true)) ∧
    ∃ a N, (itemRun simWorld h0 [invA1] invA2 sim0).trace = a ++ N ∧
      runsqlCalls caseAccessScript a = 1 ∧
      runsqlCalls caseAccessScript N = 0 ∧
      (∃ c ∈ a.tail, c.confirms = true) ∧
      (∀ e ∈ a, e.isRunsqlOf caseMessageScript = false) ∧
      (∀ e ∈ N, e.isRunsqlOf caseMessageScript = true) ∧
      ((ReportedDone invA2.ID a ∧ runsqlCalls caseMessageScript N = 1 ∧
          (itemRun simWorld h0 [invA1] invA2 sim0).val = recorded invA2.ID (lastError N)) ∨
        (¬ ReportedDone invA2.ID a ∧ N = [] ∧
          ∃ e, lastError a = some e ∧
            (itemRun simWorld h0 [invA1] invA2 sim0).val = [⟨invA2.ID, e⟩])) :=
  ⟨⟨by decide, by decide, by decide, by decide, by decide⟩,
    (processInvite_case_item simWorld h0 [invA1] invA2 [] sim0 (by decide) (by decide)
      (by decide) (by decide) (by decide)).2⟩

/-- C6, the failing run: the grant script succeeds without setting the
completion timestamp, the check after the grant returns a NULL timestamp
without error, and `processInvite` records no error and reports `a1` done. -/
theorem processInvite_null_timestamp_reported :
    Event.queryProcessedDatetime "a1" (Res.ok ⟨0, false⟩) ∈
      (processInvite simWorld h0 [invA1] simNoop).trace.tail ∧
    (processInvite simWorld h0 [invA1] simNoop).val = [] ∧
    (processInvite simWorld h0 [invA1] simNoop).state.reported = [["a1"]] ∧
    (simWorld.queryProcessedDatetime (processInvite simWorld h0 [invA1] simNoop).state "a1").1 =
      Res.ok ⟨0, false⟩ := by
  decide

/-- C7 as stated fails: for the batch `[a1, a2]` the completion reporter is
called twice, and no call carries the full set `["a1", "a2"]`. -/
theorem processInvite_reports_per_item :
    reporterCalls (processInvite simWorld h0 [invA1, invA2] sim0).trace = 2 ∧
    (processInvite simWorld h0 [invA1, invA2] sim0).val = [] ∧
    ∀ e ∈ (processInvite simWorld h0 [invA1, invA2] sim0).trace,
      e.reportIds ≠ ["a1", "a2"] := by
  decide

/-- C7 (amended).  For every batch `pre ++ inv :: post`: the batch result is
made of the results for `pre`, for `inv` and for `post`, in this order; the
completion reporter is called for `inv` once if `inv` was judged complete and
not at all otherwise, always with the list `[inv.ID]`; the entries `inv` adds
to the aggregate are none when the last call made for it succeeded and
otherwise the single entry labelled `inv.ID` wrapping the error of that call.
For every batch, the returned aggregate is nil exactly when no item added an
entry. -/
theorem processInvite_report_and_aggregate (w : World σ) (h : handler) (invites : List invite)
    (s : σ) :
    (∀ pre inv post, invites = pre ++ inv :: post →
      processInvite w h invites s =
          ⟨(processInvite w h pre s).val ++ (itemRun w h pre inv s).val ++
              (processInvite w h post (itemRun w h pre inv s).state).val,
            (processInvite w h post (itemRun w h pre inv s).state).state,
            (processInvite w h pre s).trace ++ (itemRun w h pre inv s).trace ++
              (processInvite w h post (itemRun w h pre inv s).state).trace⟩ ∧
      reporterCalls (itemRun w h pre inv s).trace =
          (if judgedComplete (itemRun w h pre inv s).trace then 1 else 0) ∧
      (∀ e ∈ (itemRun w h pre inv s).trace, e.isReport = true → e.reportIds = [inv.ID]) ∧
      (itemRun w h pre inv s).val =
          recorded inv.ID (lastError (itemRun w h pre inv s).trace)) ∧
    ((processInvite w h invites s).val = [] ↔
      ∀ pre inv post, invites = pre ++ inv :: post →
        lastError (itemRun w h pre inv s).trace = none) := by
  refine ⟨?_, ?_⟩
  · intro pre inv post heq
    subst heq
    exact ⟨processInvite_item w h pre inv post s, (body_reports w h inv _).1,
      (body_reports w h inv _).2, body_lastError w h inv _⟩
  · rw [processInvite_val_nil_iff]
    constructor
    · intro hall pre inv post heq
      have hv := hall pre inv post heq
      have hl : (itemRun w h pre inv s).val =
          recorded inv.ID (lastError (itemRun w h pre inv s).trace) := body_lastError w h inv _
      rw [hl] at hv
      cases hle : lastError (itemRun w h pre inv s).trace with
      | none => rfl
      | some e => rw [hle] at hv; simp [recorded] at hv
    · intro hall pre inv post heq
      have hl : (itemRun w h pre inv s).val =
          recorded inv.ID (lastError (itemRun w h pre inv s).trace) := body_lastError w h inv _
      rw [hl, hall pre inv post heq]
      rfl

/-- C8 (unknown role).  Take any batch `pre ++ bad :: post` and any behaviour
of the collaborators in which, when `bad` is reached, its completion check
finds no completion timestamp, its existence probe finds no record, the role
lookup finds no row, and these three SELECT queries leave the collaborator
state as it is.  Then the calls made for `bad` are exactly these three
queries (no INSERT, no script, no report), the aggregate gets the entry
labelled `bad.ID` wrapping the lookup error, and the items of `pre` and `post`
make the same calls, add the same entries and leave the same final state as in
the batch `pre ++ post`. -/
theorem processInvite_unknown_role (w : World σ) (h : handler) (pre : List invite)
    (bad : invite) (post : List invite) (s : σ) (r : Res NullTime) (e1 e : String)
    (hchk : w.queryProcessedDatetime (processInvite w h pre s).state bad.ID =
      (r, (processInvite w h pre s).state))
    (hr : r.validTime = false)
    (hprobe : w.queryInvitationID (processInvite w h pre s).state bad.ID =
      (Res.err e1, (processInvite w h pre s).state))
    (hrole : w.queryRoleID (processInvite w h pre s).state bad.Role =
      (Res.err e, (processInvite w h pre s).state)) :
    processInvite w h (pre ++ bad :: post) s =
      ⟨(processInvite w h pre s).val ++ [⟨bad.ID, e⟩] ++
          (processInvite w h post (processInvite w h pre s).state).val,
        (processInvite w h post (processInvite w h pre s).state).state,
        (processInvite w h pre s).trace ++
          [Event.queryProcessedDatetime bad.ID r, Event.queryInvitationID bad.ID (Res.err e1),
            Event.queryRoleID bad.Role (Res.err e)] ++
          (processInvite w h post (processInvite w h pre s).state).trace⟩ ∧
    processInvite w h (pre ++ post) s =
      ⟨(processInvite w h pre s).val ++
          (processInvite w h post (processInvite w h pre s).state).val,
        (processInvite w h post (processInvite w h pre s).state).state,
        (processInvite w h pre s).trace ++
          (processInvite w h post (processInvite w h pre s).state).trace⟩ := by
  refine ⟨?_, processInvite_append w h pre post s⟩
  rw [processInvite_item, itemRun,
    body_unknown_role w h bad (processInvite w h pre s).state r e1 e hchk hr hprobe hrole]

/-- C8, a concrete run (scenario D): in the batch `[a1, a3, a2]` the role of
`a3` is unknown; `a3` gets three queries and one entry, `a1` and `a2` are
processed as in the batch `[a1, a2]`. -/
theorem processInvite_unknown_role_witness :
    processInvite simWorld h0 ([invA1] ++ invA3 :: [invA2]) sim0 =
      ⟨(processInvite simWorld h0 [invA1] sim0).val ++ [⟨"a3", errNoRows⟩] ++
          (processInvite simWorld h0 [invA2] (processInvite simWorld h0 [invA1] sim0).state).val,
        (processInvite simWorld h0 [invA2] (processInvite simWorld h0 [invA1] sim0).state).state,
        (processInvite simWorld h0 [invA1] sim0).trace ++
          [Event.queryProcessedDatetime "a3" (Res.err errNoRows),
            Event.queryInvitationID "a3" (Res.err errNoRows),
            Event.queryRoleID "nobody" (Res.err errNoRows)] ++
          (processInvite simWorld h0 [invA2]
            (processInvite simWorld h0 [invA1] sim0).state).trace⟩ :=
  (processInvite_unknown_role simWorld h0 [invA1] invA3 [invA2] sim0 (Res.err errNoRows)
    errNoRows errNoRows (by decide) rfl (by decide) (by decide)).1

/-- C9 as stated fails: the upstream answers 500 to the PUT and
`markInvitesProcessed` returns the nil error. -/
theorem markInvitesProcessed_nil_on_500 :
    (markInvitesProcessed simWorld h0 ["a1", "a2"] sim500).trace =
      [Event.newRequest "https://case/api/pending-invitations/done?accessToken=tok"
          ["a1", "a2"] none,
        Event.httpDo "https://case/api/pending-invitations/done?accessToken=tok"
          ["a1", "a2"] (Res.ok 500)] ∧
    ¬ (200 ≤ 500 ∧ 500 < 300) ∧
    (markInvitesProcessed simWorld h0 ["a1", "a2"] sim500).val = none := by
  decide

/-- C9 (amended).  For every identifier list and every behaviour of the
upstream, `markInvitesProcessed` builds one PUT request to `doneURL h` whose
payload is the whole list.  If building the request fails, it returns that
error and sends nothing.  Otherwise it calls `Do` exactly once, with that URL
and the whole list, and what it returns is the error of `Do`: the transport
error when `Do` fails, and nil whenever `Do` returns a response, whatever the
status code of that response.  Hence every call carries the whole list, any
failed call is the returned error, and nil is returned exactly when the trace
holds an answered PUT of the list. -/
theorem markInvitesProcessed_error_contract (w : World σ) (h : handler) (ids : List String)
    (s : σ) :
    (∀ e, w.newRequest (doneURL h) = some e →
      markInvitesProcessed w h ids s =
        ⟨some e, s, [Event.newRequest (doneURL h) ids (some e)]⟩) ∧
    (w.newRequest (doneURL h) = none →
      (markInvitesProcessed w h ids s).trace =
          [Event.newRequest (doneURL h) ids none,
            Event.httpDo (doneURL h) ids (w.httpDo s (doneURL h) ids).1] ∧
        (markInvitesProcessed w h ids s).state = (w.httpDo s (doneURL h) ids).2 ∧
        (markInvitesProcessed w h ids s).val = (w.httpDo s (doneURL h) ids).1.errorOf) ∧
    (markInvitesProcessed w h ids s).trace.countP Event.isPut =
      (if w.newRequest (doneURL h) = none then 1 else 0) ∧
    (∀ e ∈ (markInvitesProcessed w h ids s).trace, e.isReport = true ∧ e.reportIds = ids) ∧
    (∀ e ∈ (markInvitesProcessed w h ids s).trace, ∀ msg, e.errorOf = some msg →
      (markInvitesProcessed w h ids s).val = some msg) ∧
    ((markInvitesProcessed w h ids s).val = none ↔
      ∃ code, Event.httpDo (doneURL h) ids (Res.ok code) ∈
        (markInvitesProcessed w h ids s).trace) := by
  unfold markInvitesProcessed doneURL
  dsimp only
  cases hn : w.newRequest
      (h.Domain ++ "/api/pending-invitations/done?accessToken=" ++ h.APIAccessToken) with
  | some e =>
    simp [Event.isPut, Event.isReport, Event.reportIds, Event.errorOf, Res.errorOf]
  | none =>
    dsimp only
    cases hq : (w.httpDo s
        (h.Domain ++ "/api/pending-invitations/done?accessToken=" ++ h.APIAccessToken) ids).1 <;>
      simp [Event.isPut, Event.isReport, Event.reportIds, Event.errorOf, Res.errorOf]

/-- C9, a concrete run: the request builds, the PUT of `["a1", "a2"]` is sent
once to `doneURL h0`, and the response has status 500. -/
theorem markInvitesProcessed_error_contract_witness :
    simWorld.newRequest (doneURL h0) = none ∧
    (markInvitesProcessed simWorld h0 ["a1", "a2"] sim500).trace =
      [Event.newRequest (doneURL h0) ["a1", "a2"] none,
        Event.httpDo (doneURL h0) ["a1", "a2"]
          (simWorld.httpDo sim500 (doneURL h0) ["a1", "a2"]).1] ∧
    (simWorld.httpDo sim500 (doneURL h0) ["a1", "a2"]).1 = Res.ok 500 :=
  ⟨rfl, ((markInvitesProcessed_error_contract simWorld h0 ["a1", "a2"] sim500).2.1 rfl).1,
    by decide⟩

/-- C10 as stated fails: in the pushed batch `[a3, a1]` Register fails for
`a3` (unknown role); the only call made is the role lookup of `a3`, nothing is
attempted for `a1`, and the error of `a3` is returned. -/
theorem inviteUsertoUnit_aborts_batch :
    (inviteUsertoUnit simWorld h0 [invA3, invA1] sim0).trace =
      [Event.queryRoleID "nobody" (Res.err errNoRows)] ∧
    (inviteUsertoUnit simWorld h0 [invA3, invA1] sim0).val = some errNoRows ∧
    (inviteUsertoUnit simWorld h0 [invA1] sim0).val = none := by
  decide

/-- C10 (amended).  For every pushed batch `pre ++ bad :: post` in which no
item of `pre` fails and Register or the grant fails for `bad` with error `e`:
`inviteUsertoUnit` stops at `bad`: it makes the calls for `pre` and for `bad`
and no call for any item of `post`, it returns `e` alone, and `handlePush`
answers 500 with `e`. -/
theorem inviteUsertoUnit_stops_at_first_failure (w : World σ) (h : handler)
    (pre : List invite) (bad : invite) (post : List invite) (s : σ) (e : String)
    (hpre : (inviteUsertoUnit w h pre s).val = none)
    (hbad : (inviteUsertoUnit w h [bad] (inviteUsertoUnit w h pre s).state).val = some e) :
    inviteUsertoUnit w h (pre ++ bad :: post) s =
      ⟨some e, (inviteUsertoUnit w h [bad] (inviteUsertoUnit w h pre s).state).state,
        (inviteUsertoUnit w h pre s).trace ++
          (inviteUsertoUnit w h [bad] (inviteUsertoUnit w h pre s).state).trace⟩ ∧
    inviteUsertoUnit w h (pre ++ bad :: post) s = inviteUsertoUnit w h (pre ++ [bad]) s ∧
    (handlePush w h (pre ++ bad :: post) s).val = (500, e) := by
  have h1 : inviteUsertoUnit w h (pre ++ bad :: post) s =
      ⟨some e, (inviteUsertoUnit w h [bad] (inviteUsertoUnit w h pre s).state).state,
        (inviteUsertoUnit w h pre s).trace ++
          (inviteUsertoUnit w h [bad] (inviteUsertoUnit w h pre s).state).trace⟩ := by
    rw [inviteUsertoUnit_append w h pre (bad :: post) s hpre,
      inviteUsertoUnit_failed_head w h bad post _ e hbad, hbad]
  refine ⟨h1, ?_, ?_⟩
  · rw [h1, inviteUsertoUnit_append w h pre [bad] s hpre, hbad]
  · unfold handlePush
    have hlen : ¬ (pre ++ bad :: post).length < 1 := by simp
    simp only [hlen, if_false]
    rw [h1]

/-- C10, a concrete run: in the pushed batch `[a1, a3, a2]` the item `a1`
succeeds, Register fails for `a3`, and `a2` is never attempted. -/
theorem inviteUsertoUnit_stops_at_first_failure_witness :
    (inviteUsertoUnit simWorld h0 [invA1] sim0).val = none ∧
    inviteUsertoUnit simWorld h0 ([invA1] ++ invA3 :: [invA2]) sim0 =
      inviteUsertoUnit simWorld h0 ([invA1] ++ [invA3]) sim0 ∧
    (handlePush simWorld h0 ([invA1] ++ invA3 :: [invA2]) sim0).val = (500, errNoRows) :=
  ⟨by decide,
    (inviteUsertoUnit_stops_at_first_failure simWorld h0 [invA1] invA3 [invA2] sim0 errNoRows
      (by decide) (by decide)).2⟩

end Invite
